import Mathlib

/-!
Shallow embedding of the device simulator's frame codec (protocol/protocol.h
and its implementation), the dual ring-buffer I/O layer
(protocol/io_buffer.c) and the application state engine (app.c).

Machine integers are modelled as `Nat` with an explicit `% 2^16` / `% 2^32`
wherever the C code's fixed-width arithmetic can overflow.  Byte values are
`Nat` and carry `< 256` hypotheses in the theorems, mirroring the `uint8_t`
type of the C buffers.  Buffers are modelled as `List Nat` (frames, payloads)
or as total functions `Nat → Nat` (the ring-buffer backing arrays).
-/

namespace DeviceSim

/-! ### CRC16 engine (CRC16_Calc in protocol.c) -/

/-- One shift round of the CRC16 inner loop:
`if (crc & 0x0001) { crc >>= 1; crc ^= 0xA001; } else { crc >>= 1; }`.
`crc & 1` on a Nat is `crc % 2`, `crc >> 1` is `crc / 2`. -/
def crc16Round (crc : Nat) : Nat :=
  if crc % 2 = 1 then (crc / 2) ^^^ 0xA001 else crc / 2

/-- Processing of one data byte: `crc ^= data[i]` followed by 8 shift rounds. -/
def crc16Byte (crc b : Nat) : Nat :=
  crc16Round^[8] (crc ^^^ b)

/-- `CRC16_Calc(data, length, initVal)`: a left fold of the per-byte step over
the data bytes (the C `length` argument is the length of the list). -/
def CRC16_Calc (data : List Nat) (initVal : Nat) : Nat :=
  data.foldl crc16Byte initVal

/-! ### Frame codec (buildFrame / parseFrame in protocol.c) -/

/-- `buildFrame(commandID, seq, payload, payloadLen, outBuf, outBufLen)`.
Returns `some frame` on success and `none` when the output buffer is too
small (the C return value -1).  `lengthField` and `totalFrameSize` are
`uint16_t` in C, hence the `% 65536`.  The checksum is computed over
`outBuf[4 .. 4+2+payloadLen)`, i.e. commandID, seq and the payload bytes,
with the `(uint16_t)(2 + payloadLen)` cast on the length argument made
explicit by the `take`; init value 0xFFFF.  The length and checksum fields
are serialized little-endian (`x & 0xFF` is `x % 256`, `(x >> 8) & 0xFF`
is `x / 256 % 256`). -/
def buildFrame (commandID seq : Nat) (payload : List Nat) (outBufLen : Nat) :
    Option (List Nat) :=
  let lengthField := (1 + 1 + payload.length + 2) % 65536
  let totalFrameSize := (2 + 2 + lengthField + 2) % 65536
  if totalFrameSize > outBufLen then
    none
  else
    let crcData := (commandID :: seq :: payload).take ((2 + payload.length) % 65536)
    let crc := CRC16_Calc crcData 0xFFFF
    some ([0xAA, 0x55, lengthField % 256, lengthField / 256 % 256,
           commandID, seq] ++ payload ++
          [crc % 256, crc / 256 % 256, 0x55, 0xAA])

/-- Result of `parseFrame`: the C return code together with the output
parameters `*pCmd`, `*pSeq`, the payload buffer and `*pPayloadLen`. -/
structure ParseResult where
  ret : Int
  cmd : Nat
  seq : Nat
  payload : List Nat
  payloadLen : Nat
deriving DecidableEq

/-- `parseFrame(inBuf, inLen, pCmd, pSeq, pPayload, pPayloadLen)`; `inLen` is
the length of the input list.  Output parameters that the C code has not yet
written at the point of an early return are 0 / [] here; note that the C code
writes `*pCmd`, `*pSeq`, the payload bytes and `*pPayloadLen` before the CRC
comparison, so those fields are also filled in the `-4` result.  Buffer reads
are `getD _ _ 0`; `payloadLen` (`lengthField - 4` on uint16_t), the implicit
`offset` accumulator and the `(uint16_t)(2 + payloadLen)` CRC length argument
wrap at 2^16, hence the `% 65536`.  On `uint8_t` operands
`l0 | (l1 << 8)` equals `l0 + 256 * l1`, the form used here for the
little-endian 16-bit reads. -/
def parseFrame (inBuf : List Nat) : ParseResult :=
  let inLen := inBuf.length
  if inLen < 8 then ⟨-3, 0, 0, [], 0⟩
  else if ¬ (inBuf.getD 0 0 = 0xAA ∧ inBuf.getD 1 0 = 0x55) then ⟨-1, 0, 0, [], 0⟩
  else if ¬ (inBuf.getD (inLen - 2) 0 = 0x55 ∧ inBuf.getD (inLen - 1) 0 = 0xAA) then
    ⟨-2, 0, 0, [], 0⟩
  else
    let lengthField := inBuf.getD 2 0 + 256 * inBuf.getD 3 0
    if (6 + lengthField) % 65536 ≠ inLen then ⟨-3, 0, 0, [], 0⟩
    else
      let cmd := inBuf.getD 4 0
      let seq := inBuf.getD 5 0
      let payloadLen := (lengthField + 65536 - 4) % 65536
      let payload := (inBuf.drop 6).take payloadLen
      let offset := (6 + payloadLen) % 65536
      let recvCRC := inBuf.getD offset 0 + 256 * inBuf.getD (offset + 1) 0
      let calcCRC := CRC16_Calc ((inBuf.drop 4).take ((2 + payloadLen) % 65536)) 0xFFFF
      if recvCRC ≠ calcCRC then ⟨-4, cmd, seq, payload, payloadLen⟩
      else ⟨0, cmd, seq, payload, payloadLen⟩

/-! ### Ring buffers (io_buffer.c); RX_BUFFER_SIZE = TX_BUFFER_SIZE = 65535,
MAX_FRAME_SIZE = 8192 (io_buffer.h) -/

def RX_BUFFER_SIZE : Nat := 65535
def TX_BUFFER_SIZE : Nat := 65535
def MAX_FRAME_SIZE : Nat := 8192

/-- `RxBuffer_t`: backing array (a total function on indices), head and tail
cursors. -/
structure RxBuffer where
  buf : Nat → Nat
  head : Nat
  tail : Nat

/-- `TxBuffer_t`. -/
structure TxBuffer where
  buf : Nat → Nat
  head : Nat
  tail : Nat

/-- Byte-at-a-time ring write loop shared by `feedRxBuffer` and
`enqueueTxFrame` (both rings have size 65535):
`buf[tail] = data[i]; tail = (tail + 1) % SIZE;`.  Returns the updated
backing array and tail cursor. -/
def ringWrite (buf : Nat → Nat) (tail : Nat) : List Nat → (Nat → Nat) × Nat
  | [] => (buf, tail)
  | b :: rest =>
      ringWrite (fun j => if j = tail then b else buf j) ((tail + 1) % 65535) rest

/-- `rxBufferFreeSpace`: `(head + RX_BUFFER_SIZE - tail - 1) % RX_BUFFER_SIZE`. -/
def rxBufferFreeSpace (r : RxBuffer) : Nat :=
  (r.head + RX_BUFFER_SIZE - r.tail - 1) % RX_BUFFER_SIZE

/-- `feedRxBuffer(r, data, len)`: writes `min len freeSpace` bytes at the
tail and returns the count written together with the new buffer. -/
def feedRxBuffer (r : RxBuffer) (data : List Nat) : Nat × RxBuffer :=
  let freeSpace := rxBufferFreeSpace r
  let toWrite := if data.length ≤ freeSpace then data.length else freeSpace
  let out := ringWrite r.buf r.tail (data.take toWrite)
  (toWrite, { r with buf := out.1, tail := out.2 })

/-- Buffered byte count of the RX ring:
`(tail + RX_BUFFER_SIZE - head) % RX_BUFFER_SIZE`. -/
def rxAvailable (r : RxBuffer) : Nat :=
  (r.tail + RX_BUFFER_SIZE - r.head) % RX_BUFFER_SIZE

/-- The scan loop of `tryExtractOneFrame` (`while (available >= MIN_FRAME_LEN)`,
MIN_FRAME_LEN = 8): `idx` is the scan index, `available` the number of
buffered bytes from `idx` on.  Returns the copied frame and the new head
cursor on success, `none` when the loop exhausts the buffered bytes or stops
on a truncated frame.  `frameSize` is `uint16_t` in C, hence the `% 65536`.
Every `continue` of the C loop decrements `available`, which is the
termination measure.  (The inner `if (available < MIN_FRAME_LEN) return false;`
of the C source is unreachable inside the loop guard and is kept here
verbatim.) -/
def scanFrameSize (buf : Nat → Nat) (idx : Nat) : Nat :=
  (2 + 2 + (buf ((idx + 2) % 65535) + 256 * buf ((idx + 3) % 65535)) + 2) % 65536

/-- The scan loop body; `scanFrameSize` holds its `l0` / `l1` / `lengthField`
/ `frameSize` locals: the 2-byte little-endian length field peeked right
after a header candidate at `idx`, turned into the total frame size
`6 + lengthField` (`uint16_t`, hence the `% 65536`). -/
def extractScan (buf : Nat → Nat) (idx available : Nat) :
    Option (List Nat × Nat) :=
  if h8 : available < 8 then none
  else
    if buf idx = 0xAA ∧ buf ((idx + 1) % 65535) = 0x55 then
      if available < 8 then none
      else
        if scanFrameSize buf idx > MAX_FRAME_SIZE then
          extractScan buf ((idx + 1) % 65535) (available - 1)
        else if scanFrameSize buf idx > available then none
        else
          some ((List.range (scanFrameSize buf idx)).map
                  (fun i => buf ((idx + i) % 65535)),
                (idx + scanFrameSize buf idx) % 65535)
    else
      extractScan buf ((idx + 1) % 65535) (available - 1)
termination_by available
decreasing_by all_goals omega

/-- `tryExtractOneFrame`: minimum-length precheck, then the header scan from
`head`; on success the head cursor advances past the consumed frame. -/
def tryExtractOneFrame (r : RxBuffer) : Option (List Nat × RxBuffer) :=
  if rxAvailable r < 8 then none
  else
    match extractScan r.buf r.head (rxAvailable r) with
    | none => none
    | some (frame, newHead) => some (frame, { r with head := newHead })

/-- `tryParseFramesFromRx`: drives the extractor to exhaustion, collecting
every extracted frame in order (the C code hands each one to the `onFrame`
callback).  The C loop runs until extraction fails; every successful
extraction consumes at least 6 buffered bytes, so any
`fuel ≥ rxAvailable r + 1` reaches the failing extraction and the result is
then independent of the fuel.  Theorems quantify over every sufficient fuel. -/
def tryParseFramesFromRx (fuel : Nat) (r : RxBuffer) :
    List (List Nat) × RxBuffer :=
  match fuel with
  | 0 => ([], r)
  | fuel + 1 =>
      match tryExtractOneFrame r with
      | none => ([], r)
      | some (frame, r1) =>
          let out := tryParseFramesFromRx fuel r1
          (frame :: out.1, out.2)

/-- `txBufferFreeSpace`: `(head + TX_BUFFER_SIZE - tail - 1) % TX_BUFFER_SIZE`. -/
def txBufferFreeSpace (t : TxBuffer) : Nat :=
  (t.head + TX_BUFFER_SIZE - t.tail - 1) % TX_BUFFER_SIZE

/-- `enqueueTxFrame(t, frame, frameLen)`: `uint16_t needed = frameLen + 2`
wraps at 2^16, hence the `% 65536`.  On success a 2-byte little-endian length
record header and the frame bytes are written at the tail (the C code writes
the two header bytes and then the frame bytes with the same
`buf[tail] = b; tail = (tail+1) % SIZE` step, merged here into one
`ringWrite` of the concatenation).  Returns 0 on success, -1 when the free
space is insufficient (no write happens in that case). -/
def enqueueTxFrame (t : TxBuffer) (frame : List Nat) : Int × TxBuffer :=
  let frameLen := frame.length
  let needed := (frameLen + 2) % 65536
  if needed > txBufferFreeSpace t then (-1, t)
  else
    let out := ringWrite t.buf t.tail ([frameLen % 256, frameLen / 256 % 256] ++ frame)
    (0, { t with buf := out.1, tail := out.2 })

/-- The copy loop of `dequeueTxFrame`: reads `n` bytes starting at cursor `h`,
returning the bytes and the advanced cursor. -/
def txReadLoop (buf : Nat → Nat) (h : Nat) : Nat → List Nat × Nat
  | 0 => ([], h)
  | n + 1 =>
      let b := buf h
      let out := txReadLoop buf ((h + 1) % 65535) n
      (b :: out.1, out.2)

/-- The skip loop of `dequeueTxFrame` (`for (i = copyLen; i < frameLen; i++)`):
advances the cursor `n` times. -/
def txSkip (h : Nat) : Nat → Nat
  | 0 => h
  | n + 1 => txSkip ((h + 1) % 65535) n

/-- `dequeueTxFrame(t, outFrame, maxLen)`: returns the stored record length
(0 when no complete record is available), the bytes copied into the caller's
buffer, and the new ring state.  Mirrors the C code: read the 2-byte
little-endian length prefix (advancing head), roll the head back by 2 and
return 0 if the record body is incomplete, else copy
`copyLen = min frameLen maxLen` bytes and skip the rest of the record. -/
def dequeueTxFrame (t : TxBuffer) (maxLen : Nat) : Nat × List Nat × TxBuffer :=
  let available := (t.tail + TX_BUFFER_SIZE - t.head) % TX_BUFFER_SIZE
  if available < 2 then (0, [], t)
  else
    let l0 := t.buf t.head
    let h1 := (t.head + 1) % TX_BUFFER_SIZE
    let l1 := t.buf h1
    let h2 := (h1 + 1) % TX_BUFFER_SIZE
    let frameLen := l0 + 256 * l1
    if frameLen > available - 2 then
      (0, [], { t with head := (h2 + TX_BUFFER_SIZE - 2) % TX_BUFFER_SIZE })
    else
      let copyLen := if frameLen ≤ maxLen then frameLen else maxLen
      let rd := txReadLoop t.buf h2 copyLen
      let h3 := txSkip rd.2 (frameLen - copyLen)
      (frameLen, rd.1, { t with head := h3 })

/-! ### Application state engine (app.c) -/

/-- One channel configuration entry (`g_app.channels[i]`). -/
structure Channel where
  enabled : Nat
  sampleRate : Nat
  format : Nat
deriving DecidableEq

/-- The device-state part of `app_context_t`: mode (0 = MODE_CONTINUOUS,
1 = MODE_TRIGGER), stream status (0 = STATUS_STOPPED, 1 = STATUS_RUNNING),
the `uint8_t seq_counter`, channel table, and the `trigger` sub-struct
(`armed`, `occurred`, `sending`, `timestamp`, `packets_to_send`,
`packets_sent`, `next_trigger_time`, flattened here with a `trig` name
part), plus the two millisecond timers.  The TX/RX rings and the scratch
buffers of the C struct are owned by the I/O layer modelled above and are
not duplicated here. -/
structure AppState where
  mode : Nat
  status : Nat
  seqCounter : Nat
  channels : Nat → Channel
  numChannels : Nat
  trigArmed : Nat
  trigOccurred : Nat
  trigSending : Nat
  trigTimestamp : Nat
  packetsToSend : Nat
  packetsSent : Nat
  nextTriggerTime : Nat
  lastDataSendTime : Nat
  startTime : Nat

/-- `app_init()`: zeroed context, then mode CONTINUOUS, status STOPPED,
two enabled channels at 10000 Hz, format 0x01. -/
def app_init : AppState where
  mode := 0
  status := 0
  seqCounter := 0
  channels := fun i => if i = 0 ∨ i = 1 then ⟨1, 10000, 1⟩ else ⟨0, 0, 0⟩
  numChannels := 2
  trigArmed := 0
  trigOccurred := 0
  trigSending := 0
  trigTimestamp := 0
  packetsToSend := 0
  packetsSent := 0
  nextTriggerTime := 0
  lastDataSendTime := 0
  startTime := 0

/-- One frame handed to `app_send_frame_with_seq` by the command handler:
command id, echoed sequence number, payload bytes. -/
structure Emission where
  cmd : Nat
  seq : Nat
  payload : List Nat
deriving DecidableEq

/-- ASCII bytes of the channel names used by the GetDeviceInfo handler:
"Voltage" for channel 0, "Current" otherwise. -/
def channelName (i : Nat) : List Nat :=
  if i = 0 then [86, 111, 108, 116, 97, 103, 101]
  else [67, 117, 114, 114, 101, 110, 116]

/-- Per-channel block of the DeviceInfoResponse payload: channel id,
max sample rate 100000 as 4 little-endian bytes, supported-format mask
0x0003 as 2 little-endian bytes, name length, name bytes. -/
def deviceInfoChannel (i : Nat) : List Nat :=
  [i % 256] ++ [160, 134, 1, 0] ++ [3, 0] ++
  [(channelName i).length] ++ channelName i

/-- DeviceInfoResponse payload: protocol version 6, firmware version 0x0201
as 2 little-endian bytes, channel count, then the per-channel blocks. -/
def deviceInfo (n : Nat) : List Nat :=
  [6, 1, 2, n % 256] ++ ((List.range n).map deviceInfoChannel).flatten

/-- The record loop of the ConfigureStream handler:
`for (i = 0; i < num_configs && offset + 6 <= payload_len; i++)`, processed
here with the remaining iteration count as the recursion argument.  Each
record is {channelId, sampleRate as 4 little-endian bytes (the C code reads
it with a uint32 load on a little-endian target), format}; records whose
channel id is in range update the channel table
(`enabled = (rate > 0)`). -/
def configLoop (chans : Nat → Channel) (numCh : Nat) (payload : List Nat)
    (offset : Nat) : Nat → (Nat → Channel)
  | 0 => chans
  | i + 1 =>
      if offset + 6 ≤ payload.length then
        let chId := payload.getD offset 0
        let rate := payload.getD (offset + 1) 0 + 256 * payload.getD (offset + 2) 0
          + 65536 * payload.getD (offset + 3) 0 + 16777216 * payload.getD (offset + 4) 0
        let fmt := payload.getD (offset + 5) 0
        let chans1 :=
          if chId < numCh then
            fun j => if j = chId then ⟨if rate > 0 then 1 else 0, rate, fmt⟩ else chans j
          else chans
        configLoop chans1 numCh payload (offset + 6) i
      else chans

/-- `app_handle_command(cmd, seq, payload, payload_len)`.  Returns the new
state and the frames handed to `app_send_frame_with_seq` (every response
echoes the request's seq; the handler never touches `seq_counter`).  `rnd`
models the result of the `rand()` call of the SetModeTrigger branch.  The
8-byte PONG payload is the device id 0x11223344AABBCCDD laid out
little-endian, as the C memcpy of the uint64 does on the target.  The
GetStatus branch answers with the full 8-byte `status_payload` array
(`sizeof(status_payload)`), of which only the first four bytes are
meaningful.  Timestamps are uint32, hence the `% 4294967296` on the
rescheduled trigger time. -/
def app_handle_command (s :  AppState) (cmd seq : Nat) (payload : List Nat)
    (rnd : Nat) : AppState × List Emission :=
  if cmd = 0x01 then
    (s, [⟨0x81, seq, [0xDD, 0xCC, 0xBB, 0xAA, 0x44, 0x33, 0x22, 0x11]⟩])
  else if cmd = 0x02 then
    (s, [⟨0x82, seq, [s.mode % 256, s.status % 256, 0, 0, 0, 0, 0, 0]⟩])
  else if cmd = 0x03 then
    (s, [⟨0x83, seq, deviceInfo s.numChannels⟩])
  else if cmd = 0x10 then
    ({ s with mode := 0, trigArmed := 0 }, [⟨0x90, seq, []⟩])
  else if cmd = 0x11 then
    ({ s with mode := 1, trigArmed := 1, trigOccurred := 0, trigSending := 0,
              nextTriggerTime := (s.startTime + 5000 + rnd % 5000) % 4294967296 },
     [⟨0x90, seq, []⟩])
  else if cmd = 0x12 then
    ({ s with status := 1, lastDataSendTime := 0 }, [⟨0x90, seq, []⟩])
  else if cmd = 0x13 then
    ({ s with status := 0, trigSending := 0 }, [⟨0x90, seq, []⟩])
  else if cmd = 0x14 then
    if payload.length < 1 then
      (s, [⟨0x91, seq, [0x01, 0x01]⟩])
    else
      let numConfigs := payload.getD 0 0
      ({ s with channels := configLoop s.channels s.numChannels payload 1 numConfigs },
       [⟨0x90, seq, []⟩])
  else if cmd = 0x42 then
    if s.mode ≠ 1 ∨ s.trigOccurred = 0 then
      (s, [⟨0x91, seq, [0x02, 0x02]⟩])
    else
      (s, [⟨0x90, seq, []⟩])
  else
    (s, [⟨0x91, seq, [0x05, 0x00]⟩])

/-- `app_periodic_task(current_time_ms)`.  `now` is the uint32 millisecond
timestamp; `rnd` models the result of the (at most one) `rand()` call that
decides state in an invocation: the burst size draw `5 + rand() % 6` when a
trigger fires, or the reschedule draw `rand() % 5000` when a burst completes
(a single invocation never needs both).  The returned list holds the
commandIDs of the frames handed to the send path, in order
(0x41 EventTriggered, 0x40 DataPacket, 0x4F BufferTransferComplete); the
DataPacket payload is synthesized in C with floating-point `sin()` and
per-sample `rand()` noise and is not modelled — the claims about this task
concern only the kinds, number and pacing of emitted frames.  Each emission
goes through `app_send_frame`, which bumps the uint8 `seq_counter`.  The
uint32 elapsed-time test `now - last >= DATA_SEND_INTERVAL` is modelled with
wraparound subtraction. -/
def app_periodic_task (s : AppState) (now rnd : Nat) : AppState × List Nat :=
  let s := if s.startTime = 0 then { s with startTime := now } else s
  if s.status ≠ 1 then (s, [])
  else if s.mode = 1 then
    let trig := s.trigArmed = 1 ∧ s.trigOccurred = 0 ∧ s.nextTriggerTime ≤ now
    let s1 :=
      if trig then
        { s with trigOccurred := 1, trigSending := 1, trigTimestamp := now,
                 packetsToSend := 5 + rnd % 6, packetsSent := 0,
                 seqCounter := (s.seqCounter + 1) % 256 }
      else s
    let ems1 : List Nat := if trig then [0x41] else []
    if s1.trigSending = 1 then
      if 10 ≤ (now + 4294967296 - s1.lastDataSendTime) % 4294967296 then
        if s1.packetsSent < s1.packetsToSend then
          ({ s1 with packetsSent := s1.packetsSent + 1, lastDataSendTime := now,
                     seqCounter := (s1.seqCounter + 1) % 256 },
           ems1 ++ [0x40])
        else
          ({ s1 with trigSending := 0, trigOccurred := 0,
                     nextTriggerTime := (now + 10000 + rnd % 5000) % 4294967296,
                     seqCounter := (s1.seqCounter + 1) % 256 },
           ems1 ++ [0x4F])
      else (s1, ems1)
    else (s1, ems1)
  else if s.mode = 0 then
    if 10 ≤ (now + 4294967296 - s.lastDataSendTime) % 4294967296 then
      ({ s with lastDataSendTime := now, seqCounter := (s.seqCounter + 1) % 256 },
       [0x40])
    else (s, [])
  else (s, [])

/-- Driving the periodic task over a list of (timestamp, rand draw) ticks,
concatenating the emitted commandIDs. -/
def runTicks (s : AppState) : List (Nat × Nat) → AppState × List Nat
  | [] => (s, [])
  | (now, rnd) :: rest =>
      let step := app_periodic_task s now rnd
      let out := runTicks step.1 rest
      (out.1, step.2 ++ out.2)

/-! ### Ring-buffer loop lemmas -/

/-- The write loop's final tail cursor. -/
theorem ringWrite_tail (d : List Nat) : ∀ (buf : Nat → Nat) (t : Nat), t < 65535 →
    (ringWrite buf t d).2 = (t + d.length) % 65535 := by
  induction d with
  | nil => intro buf t ht; simp [ringWrite, Nat.mod_eq_of_lt ht]
  | cons b rest ih =>
      intro buf t ht
      rw [ringWrite, ih _ _ (Nat.mod_lt _ (by norm_num)), Nat.mod_add_mod]
      have h : t + 1 + rest.length = t + (b :: rest).length := by simp; omega
      rw [h]

/-- The write loop stores the data bytes at consecutive (wrapped) positions
starting at the tail and leaves every other position unchanged, provided the
data fits in one revolution of the ring. -/
theorem ringWrite_get (d : List Nat) : ∀ (buf : Nat → Nat) (t : Nat), t < 65535 →
    d.length ≤ 65535 →
    (∀ i, i < d.length → (ringWrite buf t d).1 ((t + i) % 65535) = d.getD i 0) ∧
    (∀ p, (∀ i, i < d.length → p ≠ (t + i) % 65535) → (ringWrite buf t d).1 p = buf p) := by
  induction d with
  | nil =>
      intro buf t ht hlen
      refine ⟨fun i hi => absurd hi (by simp), fun p _ => by simp [ringWrite]⟩
  | cons b rest ih =>
      intro buf t ht hlen
      have ht1 : (t + 1) % 65535 < 65535 := Nat.mod_lt _ (by norm_num)
      have hlen1 : rest.length ≤ 65535 := by simp at hlen; omega
      obtain ⟨ihget, ihother⟩ := ih (fun j => if j = t then b else buf j) ((t + 1) % 65535) ht1 hlen1
      constructor
      · intro i hi
        match i with
        | 0 =>
            have hpos : (t + 0) % 65535 = t := by omega
            rw [ringWrite, hpos]
            have huntouched : ∀ j, j < rest.length → t ≠ ((t + 1) % 65535 + j) % 65535 := by
              intro j hj
              rw [Nat.mod_add_mod]
              simp at hlen
              omega
            rw [ihother t huntouched]
            simp
        | i + 1 =>
            have hpos : (t + (i + 1)) % 65535 = ((t + 1) % 65535 + i) % 65535 := by
              rw [Nat.mod_add_mod]; congr 1; omega
            rw [ringWrite, hpos, ihget i (by simp at hi; omega)]
            simp
      · intro p hp
        rw [ringWrite]
        have hp0 : p ≠ t := by
          have := hp 0 (by simp)
          rw [Nat.add_zero, Nat.mod_eq_of_lt ht] at this
          exact this
        have hprest : ∀ j, j < rest.length → p ≠ ((t + 1) % 65535 + j) % 65535 := by
          intro j hj
          rw [Nat.mod_add_mod]
          have := hp (j + 1) (by simp; omega)
          have harith : t + (j + 1) = t + 1 + j := by omega
          rwa [harith] at this
        rw [ihother p hprest]
        simp [hp0]

/-- The read loop of `dequeueTxFrame` returns the bytes at consecutive
(wrapped) positions and advances the cursor by the count read. -/
theorem txReadLoop_spec (n : Nat) : ∀ (buf : Nat → Nat) (h : Nat), h < 65535 →
    txReadLoop buf h n =
      ((List.range n).map (fun i => buf ((h + i) % 65535)), (h + n) % 65535) := by
  induction n with
  | zero => intro buf h hh; simp [txReadLoop, Nat.mod_eq_of_lt hh]
  | succ n ih =>
      intro buf h hh
      rw [txReadLoop, ih _ _ (Nat.mod_lt _ (by norm_num))]
      simp only [Prod.mk.injEq]
      constructor
      · rw [List.range_succ_eq_map, List.map_cons, List.map_map]
        refine List.cons_eq_cons.mpr ⟨by simp [Nat.mod_eq_of_lt hh], ?_⟩
        refine List.map_congr_left fun a _ => ?_
        simp only [Function.comp_apply, Nat.mod_add_mod, Nat.succ_eq_add_one]
        congr 1
        omega
      · rw [Nat.mod_add_mod]
        congr 1
        omega

/-- The skip loop of `dequeueTxFrame` advances the cursor by the skip count. -/
theorem txSkip_spec (n : Nat) : ∀ (h : Nat), h < 65535 →
    txSkip h n = (h + n) % 65535 := by
  induction n with
  | zero => intro h hh; simp [txSkip, Nat.mod_eq_of_lt hh]
  | succ n ih =>
      intro h hh
      rw [txSkip, ih _ (Nat.mod_lt _ (by norm_num)), Nat.mod_add_mod]
      congr 1
      omega

/-! ### C5 — enqueueTxFrame atomic failure -/

/-- C5 counterexample: with an empty ring (free space 65534) and a frame of
length 65534, `frameLen + 2 = 65536` exceeds the free space, yet
`enqueueTxFrame` does not fail: the C `uint16_t needed = frameLen + 2` wraps
to 0, the guard passes, the function writes into the ring (the tail moves)
and returns success (0), not -1. -/
theorem C5_counterexample :
    (List.replicate 65534 (7 : Nat)).length + 2 > txBufferFreeSpace ⟨fun _ => 0, 0, 0⟩ ∧
    (enqueueTxFrame ⟨fun _ => 0, 0, 0⟩ (List.replicate 65534 7)).1 = 0 := by
  have hlen : (List.replicate 65534 (7 : Nat)).length = 65534 := List.length_replicate ..
  have hfree : txBufferFreeSpace ⟨fun _ => 0, 0, 0⟩ = 65534 := rfl
  refine ⟨by rw [hlen, hfree]; norm_num, ?_⟩
  simp only [enqueueTxFrame, hlen, hfree]
  rw [if_neg (by norm_num)]

/-- C5 (amended): for frame lengths up to 65533 — so that the C
`uint16_t needed = frameLen + 2` does not wrap — an enqueue attempted when
`frameLen + 2` exceeds the free space fails with -1 and leaves the ring
state (head, tail and every stored byte) exactly unchanged.  For
`frameLen ≥ 65534` the wrapped `needed` can pass the guard and the write
corrupts the ring (see the counterexample). -/
theorem C5_enqueue_fail_atomic (t : TxBuffer) (frame : List Nat)
    (hlen : frame.length ≤ 65533)
    (hfull : frame.length + 2 > txBufferFreeSpace t) :
    enqueueTxFrame t frame = (-1, t) := by
  unfold enqueueTxFrame
  have h : (frame.length + 2) % 65536 = frame.length + 2 := Nat.mod_eq_of_lt (by omega)
  simp only [h]
  rw [if_pos hfull]

theorem C5_enqueue_fail_atomic_witness :
    (List.replicate 65533 (0 : Nat)).length ≤ 65533 ∧
    (List.replicate 65533 (0 : Nat)).length + 2 > txBufferFreeSpace ⟨fun _ => 0, 0, 0⟩ ∧
    enqueueTxFrame ⟨fun _ => 0, 0, 0⟩ (List.replicate 65533 0) =
      (-1, (⟨fun _ => 0, 0, 0⟩ : TxBuffer)) := by
  have hlen : (List.replicate 65533 (0 : Nat)).length = 65533 := List.length_replicate ..
  have hfree : txBufferFreeSpace ⟨fun _ => 0, 0, 0⟩ = 65534 := rfl
  refine ⟨by rw [hlen], by rw [hlen, hfree]; norm_num, ?_⟩
  exact C5_enqueue_fail_atomic _ _ (by rw [hlen]) (by rw [hlen, hfree]; norm_num)

/-! ### C9 — feedRxBuffer semantics -/

/-- C9: `feedRxBuffer` stores exactly `min len freeSpace` bytes at the tail
and returns that count, where the free space is
`(head + capacity - tail - 1) % capacity` (so at most `capacity - 1` bytes
are usable); the stored prefix is byte-exact at consecutive wrapped
positions from the old tail, the excess bytes are dropped (no other position
of the ring changes), and the head cursor is untouched. -/
theorem C9_feedRxBuffer_spec (r : RxBuffer) (data : List Nat)
    (ht : r.tail < 65535) :
    (feedRxBuffer r data).1 = min data.length (rxBufferFreeSpace r) ∧
    rxBufferFreeSpace r = (r.head + 65535 - r.tail - 1) % 65535 ∧
    rxBufferFreeSpace r ≤ 65534 ∧
    (feedRxBuffer r data).2.head = r.head ∧
    (feedRxBuffer r data).2.tail =
      (r.tail + min data.length (rxBufferFreeSpace r)) % 65535 ∧
    (∀ i, i < min data.length (rxBufferFreeSpace r) →
      (feedRxBuffer r data).2.buf ((r.tail + i) % 65535) = data.getD i 0) ∧
    (∀ p, (∀ i, i < min data.length (rxBufferFreeSpace r) → p ≠ (r.tail + i) % 65535) →
      (feedRxBuffer r data).2.buf p = r.buf p) := by
  have hfree : rxBufferFreeSpace r ≤ 65534 := by
    have : (r.head + 65535 - r.tail - 1) % 65535 < 65535 := Nat.mod_lt _ (by norm_num)
    simp only [rxBufferFreeSpace, RX_BUFFER_SIZE]
    omega
  set w := min data.length (rxBufferFreeSpace r) with hw
  have htw : (if data.length ≤ rxBufferFreeSpace r then data.length
      else rxBufferFreeSpace r) = w := by rw [hw, Nat.min_def]
  have hlentake : (data.take w).length = w := by
    simp [List.length_take]
    omega
  have hwle : w ≤ 65535 := by omega
  obtain ⟨hget, hother⟩ := ringWrite_get (data.take w) r.buf r.tail ht (by omega)
  refine ⟨?_, rfl, hfree, ?_, ?_, ?_, ?_⟩
  · simp [feedRxBuffer, htw]
  · simp [feedRxBuffer, htw]
  · simp only [feedRxBuffer, htw]
    rw [ringWrite_tail _ _ _ ht, hlentake]
  · intro i hi
    simp only [feedRxBuffer, htw]
    rw [hget i (by omega)]
    rw [List.getD_eq_getElem?_getD, List.getElem?_take, if_pos (by omega),
        ← List.getD_eq_getElem?_getD]
  · intro p hp
    simp only [feedRxBuffer, htw]
    exact hother p (by rw [hlentake]; exact hp)

theorem C9_feedRxBuffer_spec_witness :
    (0 : Nat) < 65535 ∧
    ((feedRxBuffer ⟨fun _ => 0, 0, 0⟩ [1, 2, 3]).1 =
        min ([1, 2, 3] : List Nat).length (rxBufferFreeSpace ⟨fun _ => 0, 0, 0⟩) ∧
      rxBufferFreeSpace ⟨fun _ => 0, 0, 0⟩ = (0 + 65535 - 0 - 1) % 65535 ∧
      rxBufferFreeSpace ⟨fun _ => 0, 0, 0⟩ ≤ 65534 ∧
      (feedRxBuffer ⟨fun _ => 0, 0, 0⟩ [1, 2, 3]).2.head = 0 ∧
      (feedRxBuffer ⟨fun _ => 0, 0, 0⟩ [1, 2, 3]).2.tail =
        (0 + min ([1, 2, 3] : List Nat).length (rxBufferFreeSpace ⟨fun _ => 0, 0, 0⟩)) % 65535 ∧
      (∀ i, i < min ([1, 2, 3] : List Nat).length (rxBufferFreeSpace ⟨fun _ => 0, 0, 0⟩) →
        (feedRxBuffer ⟨fun _ => 0, 0, 0⟩ [1, 2, 3]).2.buf ((0 + i) % 65535) =
          ([1, 2, 3] : List Nat).getD i 0) ∧
      (∀ p, (∀ i, i < min ([1, 2, 3] : List Nat).length (rxBufferFreeSpace ⟨fun _ => 0, 0, 0⟩) →
          p ≠ (0 + i) % 65535) →
        (feedRxBuffer ⟨fun _ => 0, 0, 0⟩ [1, 2, 3]).2.buf p = 0)) :=
  ⟨by norm_num, C9_feedRxBuffer_spec ⟨fun _ => 0, 0, 0⟩ [1, 2, 3] (by norm_num)⟩

/-! ### C8 — dequeueTxFrame truncation -/

/-- C8: when the next complete record has stored length `L` and the caller's
capacity `maxLen` is smaller, `dequeueTxFrame` copies exactly the first
`maxLen` bytes of the record, still advances the head cursor past the whole
record (the 2-byte prefix plus all `L` bytes), and returns `L`, the stored
record length — not the number of bytes copied.  The backing array and the
tail cursor are unchanged. -/
theorem C8_dequeue_truncates (t : TxBuffer) (maxLen : Nat)
    (hh : t.head < 65535) (ht : t.tail < 65535)
    (havail : 2 ≤ (t.tail + 65535 - t.head) % 65535)
    (hrec : t.buf t.head + 256 * t.buf ((t.head + 1) % 65535)
      ≤ (t.tail + 65535 - t.head) % 65535 - 2)
    (hmax : maxLen < t.buf t.head + 256 * t.buf ((t.head + 1) % 65535)) :
    (dequeueTxFrame t maxLen).1 =
      t.buf t.head + 256 * t.buf ((t.head + 1) % 65535) ∧
    (dequeueTxFrame t maxLen).2.1 =
      (List.range maxLen).map (fun i => t.buf ((t.head + 2 + i) % 65535)) ∧
    (dequeueTxFrame t maxLen).2.2.head =
      (t.head + 2 + (t.buf t.head + 256 * t.buf ((t.head + 1) % 65535))) % 65535 ∧
    (dequeueTxFrame t maxLen).2.2.tail = t.tail ∧
    (dequeueTxFrame t maxLen).2.2.buf = t.buf := by
  set L := t.buf t.head + 256 * t.buf ((t.head + 1) % 65535) with hL
  have h2 : ((t.head + 1) % 65535 + 1) % 65535 = (t.head + 2) % 65535 := by
    rw [Nat.mod_add_mod]
  have hlt2 : (t.head + 2) % 65535 < 65535 := Nat.mod_lt _ (by norm_num)
  have hcopy : (if L ≤ maxLen then L else maxLen) = maxLen := by
    rw [if_neg (by omega)]
  have hread := txReadLoop_spec maxLen t.buf ((t.head + 2) % 65535) hlt2
  have hmap : (List.range maxLen).map (fun i => t.buf (((t.head + 2) % 65535 + i) % 65535))
      = (List.range maxLen).map (fun i => t.buf ((t.head + 2 + i) % 65535)) :=
    List.map_congr_left fun a _ => by rw [Nat.mod_add_mod]
  have hskip : txSkip (((t.head + 2) % 65535 + maxLen) % 65535) (L - maxLen)
      = (t.head + 2 + L) % 65535 := by
    rw [txSkip_spec _ _ (Nat.mod_lt _ (by norm_num)), Nat.mod_add_mod, Nat.add_assoc,
      Nat.mod_add_mod]
    congr 1
    omega
  have hstep : dequeueTxFrame t maxLen =
      (L, (List.range maxLen).map (fun i => t.buf ((t.head + 2 + i) % 65535)),
       { t with head := (t.head + 2 + L) % 65535 }) := by
    unfold dequeueTxFrame
    simp only [TX_BUFFER_SIZE, ← hL]
    rw [if_neg (by omega : ¬ ((t.tail + 65535 - t.head) % 65535 < 2)), h2,
        if_neg (by omega : ¬ (L > (t.tail + 65535 - t.head) % 65535 - 2)), hcopy, hread]
    simp only
    rw [hmap, hskip]
  rw [hstep]
  exact ⟨rfl, rfl, rfl, rfl, rfl⟩

theorem C8_dequeue_truncates_witness :
    ((⟨fun i => [3, 0, 100, 101, 102].getD i 0, 0, 5⟩ : TxBuffer).head < 65535 ∧
      (⟨fun i => [3, 0, 100, 101, 102].getD i 0, 0, 5⟩ : TxBuffer).tail < 65535) ∧
    (dequeueTxFrame ⟨fun i => [3, 0, 100, 101, 102].getD i 0, 0, 5⟩ 2).1 = 3 ∧
    (dequeueTxFrame ⟨fun i => [3, 0, 100, 101, 102].getD i 0, 0, 5⟩ 2).2.1 = [100, 101] ∧
    (dequeueTxFrame ⟨fun i => [3, 0, 100, 101, 102].getD i 0, 0, 5⟩ 2).2.2.head = 5 := by
  have h := C8_dequeue_truncates ⟨fun i => [3, 0, 100, 101, 102].getD i 0, 0, 5⟩ 2
    (by norm_num) (by norm_num) (by norm_num) (by norm_num) (by norm_num)
  refine ⟨⟨by norm_num, by norm_num⟩, ?_, ?_, ?_⟩
  · rw [h.1]; norm_num
  · rw [h.2.1]; decide
  · rw [h.2.2.1]; norm_num

/-! ### CRC16 lemmas -/

theorem crc16Round_lt {c : Nat} (hc : c < 65536) : crc16Round c < 65536 := by
  unfold crc16Round
  split
  · have h1 : c / 2 < 2 ^ 16 := by omega
    have h2 : (0xA001 : Nat) < 2 ^ 16 := by norm_num
    have := Nat.xor_lt_two_pow h1 h2
    omega
  · omega

theorem crc16Round_inj {c d : Nat} (hc : c < 65536) (hd : d < 65536)
    (h : crc16Round c = crc16Round d) : c = d := by
  have hbit : ∀ x : Nat, x < 65536 → x % 2 = 1 → 32768 ≤ (x / 2) ^^^ 0xA001 := by
    intro x hx _
    by_contra hlt
    have hfalse : ((x / 2) ^^^ 0xA001).testBit 15 = false :=
      Nat.testBit_lt_two_pow (by omega)
    rw [Nat.testBit_xor] at hfalse
    have hx2 : (x / 2).testBit 15 = false := Nat.testBit_lt_two_pow (by omega)
    rw [hx2] at hfalse
    norm_num at hfalse
    exact absurd hfalse (by decide)
  unfold crc16Round at h
  by_cases h1 : c % 2 = 1 <;> by_cases h2 : d % 2 = 1
  · rw [if_pos h1, if_pos h2] at h
    have := congrArg (· ^^^ 0xA001) h
    simp only [Nat.xor_cancel_right] at this
    omega
  · rw [if_pos h1, if_neg h2] at h
    have ha := hbit c hc h1
    have : d / 2 < 32768 := by omega
    omega
  · rw [if_neg h1, if_pos h2] at h
    have ha := hbit d hd h2
    have : c / 2 < 32768 := by omega
    omega
  · rw [if_neg h1, if_neg h2] at h
    omega

theorem crc16Iterate_lt (n : Nat) {c : Nat} (hc : c < 65536) :
    crc16Round^[n] c < 65536 := by
  induction n generalizing c with
  | zero => simpa using hc
  | succ n ih =>
      rw [Function.iterate_succ_apply]
      exact ih (crc16Round_lt hc)

theorem crc16Iterate_inj (n : Nat) {c d : Nat} (hc : c < 65536) (hd : d < 65536)
    (h : crc16Round^[n] c = crc16Round^[n] d) : c = d := by
  induction n generalizing c d with
  | zero => simpa using h
  | succ n ih =>
      rw [Function.iterate_succ_apply, Function.iterate_succ_apply] at h
      exact crc16Round_inj hc hd (ih (crc16Round_lt hc) (crc16Round_lt hd) h)

theorem crc16Byte_lt {c b : Nat} (hc : c < 65536) (hb : b < 65536) :
    crc16Byte c b < 65536 := by
  unfold crc16Byte
  exact crc16Iterate_lt 8 (by
    have : c ^^^ b < 2 ^ 16 := Nat.xor_lt_two_pow (by omega) (by omega)
    omega)

theorem crc16Byte_inj_left {c d b : Nat} (hc : c < 65536) (hd : d < 65536)
    (hb : b < 65536) (h : crc16Byte c b = crc16Byte d b) : c = d := by
  unfold crc16Byte at h
  have hcb : c ^^^ b < 65536 := by
    have : c ^^^ b < 2 ^ 16 := Nat.xor_lt_two_pow (by omega) (by omega)
    omega
  have hdb : d ^^^ b < 65536 := by
    have : d ^^^ b < 2 ^ 16 := Nat.xor_lt_two_pow (by omega) (by omega)
    omega
  have hxor := crc16Iterate_inj 8 hcb hdb h
  have := congrArg (· ^^^ b) hxor
  simpa only [Nat.xor_cancel_right] using this

theorem crc16Byte_ne_of_byte_ne {c b b' : Nat} (hc : c < 65536) (hb : b < 65536)
    (hb' : b' < 65536) (hne : b ≠ b') : crc16Byte c b ≠ crc16Byte c b' := by
  intro h
  unfold crc16Byte at h
  have hcb : c ^^^ b < 65536 := by
    have : c ^^^ b < 2 ^ 16 := Nat.xor_lt_two_pow (by omega) (by omega)
    omega
  have hcb' : c ^^^ b' < 65536 := by
    have : c ^^^ b' < 2 ^ 16 := Nat.xor_lt_two_pow (by omega) (by omega)
    omega
  have hxor := crc16Iterate_inj 8 hcb hcb' h
  have hbb : b = b' := by
    have h1 := congrArg (fun x => c ^^^ x) hxor
    simpa only [Nat.xor_cancel_left] using h1
  exact hne hbb

theorem crc16_fold_lt (l : List Nat) : ∀ (c : Nat), c < 65536 →
    (∀ b ∈ l, b < 65536) → l.foldl crc16Byte c < 65536 := by
  induction l with
  | nil => intro c hc _; simpa using hc
  | cons x rest ih =>
      intro c hc hb
      rw [List.foldl_cons]
      exact ih _ (crc16Byte_lt hc (hb x (by simp))) fun b hbm => hb b (by simp [hbm])

theorem crc16_fold_ne (l : List Nat) : ∀ {c d : Nat}, c < 65536 → d < 65536 →
    (∀ b ∈ l, b < 65536) → c ≠ d →
    l.foldl crc16Byte c ≠ l.foldl crc16Byte d := by
  induction l with
  | nil => intro c d _ _ _ hne; simpa using hne
  | cons x rest ih =>
      intro c d hc hd hb hne
      rw [List.foldl_cons, List.foldl_cons]
      have hx : x < 65536 := hb x (by simp)
      refine ih (crc16Byte_lt hc hx) (crc16Byte_lt hd hx)
        (fun b hbm => hb b (by simp [hbm])) ?_
      intro heq
      exact hne (crc16Byte_inj_left hc hd hx heq)

/-- Flipping one byte of the checksummed data always changes the CRC16: the
per-byte step is injective in the running crc, so the states stay distinct
after the differing byte. -/
theorem crc16_single_flip (l : List Nat) : ∀ (j : Nat) {b' init : Nat},
    init < 65536 → (∀ b ∈ l, b < 65536) → b' < 65536 → j < l.length →
    b' ≠ l.getD j 0 →
    CRC16_Calc (l.set j b') init ≠ CRC16_Calc l init := by
  induction l with
  | nil => intro j b' init _ _ _ hj _; simp at hj
  | cons x rest ih =>
      intro j b' init hinit hb hb' hj hne
      match j with
      | 0 =>
          simp only [List.getD_cons_zero] at hne
          simp only [List.set]
          unfold CRC16_Calc
          rw [List.foldl_cons, List.foldl_cons]
          exact crc16_fold_ne rest (crc16Byte_lt hinit hb')
            (crc16Byte_lt hinit (hb x (by simp)))
            (fun b hbm => hb b (by simp [hbm]))
            (crc16Byte_ne_of_byte_ne hinit hb' (hb x (by simp)) hne)
      | j + 1 =>
          simp only [List.getD_cons_succ] at hne
          rw [List.set_cons_succ]
          unfold CRC16_Calc
          rw [List.foldl_cons, List.foldl_cons]
          exact ih j (crc16Byte_lt hinit (hb x (by simp)))
            (fun b hbm => hb b (by simp [hbm])) hb' (by simp at hj; omega) hne

theorem CRC16_Calc_lt {l : List Nat} {init : Nat} (hinit : init < 65536)
    (hb : ∀ b ∈ l, b < 65536) : CRC16_Calc l init < 65536 :=
  crc16_fold_lt l init hinit hb

/-! ### Frame anatomy lemmas -/

/-- The byte layout a successful `buildFrame` emits, with the two checksum
bytes abstracted (`buildFrame_eq` instantiates them with the real CRC). -/
def frameBytes (cmd seq : Nat) (payload : List Nat) (c0 c1 : Nat) : List Nat :=
  [0xAA, 0x55, (payload.length + 4) % 256, (payload.length + 4) / 256 % 256,
   cmd, seq] ++ payload ++ [c0, c1, 0x55, 0xAA]

/-- Within bounds, `buildFrame` succeeds and emits exactly the header, the
little-endian length field `payloadLen + 4`, commandID, seq, payload, the
little-endian CRC16 of commandID..payload (init 0xFFFF) and the tail. -/
theorem buildFrame_eq (cmd seq : Nat) (payload : List Nat) (outBufLen : Nat)
    (hlen : payload.length + 10 ≤ 65535) (hcap : payload.length + 10 ≤ outBufLen) :
    buildFrame cmd seq payload outBufLen =
      some (frameBytes cmd seq payload
        (CRC16_Calc (cmd :: seq :: payload) 0xFFFF % 256)
        (CRC16_Calc (cmd :: seq :: payload) 0xFFFF / 256 % 256)) := by
  have h1 : (1 + 1 + payload.length + 2) % 65536 = payload.length + 4 := by omega
  have h3 : (2 + payload.length) % 65536 = 2 + payload.length := by omega
  simp only [buildFrame, h1]
  have h2 : (2 + 2 + (payload.length + 4) + 2) % 65536 = payload.length + 10 := by omega
  rw [h2, if_neg (by omega), h3,
    List.take_of_length_le (by simp only [List.length_cons]; omega)]
  rfl

theorem frameBytes_length (cmd seq : Nat) (payload : List Nat) (c0 c1 : Nat) :
    (frameBytes cmd seq payload c0 c1).length = payload.length + 10 := by
  simp only [frameBytes, List.length_append, List.length_cons, List.length_nil]
  omega

theorem frameBytes_getD_lo (cmd seq : Nat) (payload : List Nat) (c0 c1 : Nat) :
    (frameBytes cmd seq payload c0 c1).getD 0 0 = 0xAA ∧
    (frameBytes cmd seq payload c0 c1).getD 1 0 = 0x55 ∧
    (frameBytes cmd seq payload c0 c1).getD 2 0 = (payload.length + 4) % 256 ∧
    (frameBytes cmd seq payload c0 c1).getD 3 0 = (payload.length + 4) / 256 % 256 ∧
    (frameBytes cmd seq payload c0 c1).getD 4 0 = cmd ∧
    (frameBytes cmd seq payload c0 c1).getD 5 0 = seq := by
  unfold frameBytes
  refine ⟨?_, ?_, ?_, ?_, ?_, ?_⟩ <;>
    rw [List.getD_append _ _ _ _ (by simp)] <;> rfl

/-- Reading inside the payload region of a frame. -/
theorem frameBytes_getD_payload (cmd seq : Nat) (payload : List Nat) (c0 c1 : Nat)
    (i : Nat) (hi : i < payload.length) :
    (frameBytes cmd seq payload c0 c1).getD (6 + i) 0 = payload.getD i 0 := by
  have h6 : ([0xAA, 0x55, (payload.length + 4) % 256, (payload.length + 4) / 256 % 256,
      cmd, seq] : List Nat).length = 6 := rfl
  unfold frameBytes
  rw [List.append_assoc, List.getD_append_right _ _ _ _ (by rw [h6]; omega), h6]
  have hidx : 6 + i - 6 = i := by omega
  rw [hidx, List.getD_append _ _ _ _ hi]

/-- Reading the checksum and tail region of a frame. -/
theorem frameBytes_getD_hi (cmd seq : Nat) (payload : List Nat) (c0 c1 : Nat) :
    (frameBytes cmd seq payload c0 c1).getD (6 + payload.length) 0 = c0 ∧
    (frameBytes cmd seq payload c0 c1).getD (7 + payload.length) 0 = c1 ∧
    (frameBytes cmd seq payload c0 c1).getD (8 + payload.length) 0 = 0x55 ∧
    (frameBytes cmd seq payload c0 c1).getD (9 + payload.length) 0 = 0xAA := by
  have h6 : ([0xAA, 0x55, (payload.length + 4) % 256, (payload.length + 4) / 256 % 256,
      cmd, seq] : List Nat).length = 6 := rfl
  unfold frameBytes
  refine ⟨?_, ?_, ?_, ?_⟩ <;>
    rw [List.append_assoc, List.getD_append_right _ _ _ _ (by rw [h6]; omega), h6,
      List.getD_append_right _ _ _ _ (by omega)]
  · have hidx : 6 + payload.length - 6 - payload.length = 0 := by omega
    rw [hidx]
    rfl
  · have hidx : 7 + payload.length - 6 - payload.length = 1 := by omega
    rw [hidx]
    rfl
  · have hidx : 8 + payload.length - 6 - payload.length = 2 := by omega
    rw [hidx]
    rfl
  · have hidx : 9 + payload.length - 6 - payload.length = 3 := by omega
    rw [hidx]
    rfl

theorem frameBytes_drop6 (cmd seq : Nat) (payload : List Nat) (c0 c1 : Nat) :
    (frameBytes cmd seq payload c0 c1).drop 6 = payload ++ [c0, c1, 0x55, 0xAA] := by
  unfold frameBytes
  rw [List.append_assoc]
  exact List.drop_left' rfl

theorem frameBytes_drop4 (cmd seq : Nat) (payload : List Nat) (c0 c1 : Nat) :
    (frameBytes cmd seq payload c0 c1).drop 4 =
      cmd :: seq :: (payload ++ [c0, c1, 0x55, 0xAA]) := by
  unfold frameBytes
  have h : ([0xAA, 0x55, (payload.length + 4) % 256, (payload.length + 4) / 256 % 256] :
      List Nat).length = 4 := rfl
  calc ([0xAA, 0x55, (payload.length + 4) % 256, (payload.length + 4) / 256 % 256,
          cmd, seq] ++ (payload ++ [c0, c1, 0x55, 0xAA])).drop 4
      = ([0xAA, 0x55, (payload.length + 4) % 256, (payload.length + 4) / 256 % 256] ++
          (cmd :: seq :: (payload ++ [c0, c1, 0x55, 0xAA]))).drop 4 := by
        congr 1
    _ = cmd :: seq :: (payload ++ [c0, c1, 0x55, 0xAA]) := List.drop_left' h

/-! ### parseFrame evaluation lemmas -/

theorem parseFrame_head_fail (inBuf : List Nat) (h8 : ¬ inBuf.length < 8)
    (hh : ¬ (inBuf.getD 0 0 = 0xAA ∧ inBuf.getD 1 0 = 0x55)) :
    parseFrame inBuf = ⟨-1, 0, 0, [], 0⟩ := by
  simp only [parseFrame]
  rw [if_neg h8, if_pos hh]

theorem parseFrame_tail_fail (inBuf : List Nat) (h8 : ¬ inBuf.length < 8)
    (hh : inBuf.getD 0 0 = 0xAA ∧ inBuf.getD 1 0 = 0x55)
    (htl : ¬ (inBuf.getD (inBuf.length - 2) 0 = 0x55 ∧
              inBuf.getD (inBuf.length - 1) 0 = 0xAA)) :
    parseFrame inBuf = ⟨-2, 0, 0, [], 0⟩ := by
  simp only [parseFrame]
  rw [if_neg h8, if_neg (not_not_intro hh), if_pos htl]

theorem parseFrame_len_fail (inBuf : List Nat) (h8 : ¬ inBuf.length < 8)
    (hh : inBuf.getD 0 0 = 0xAA ∧ inBuf.getD 1 0 = 0x55)
    (htl : inBuf.getD (inBuf.length - 2) 0 = 0x55 ∧
           inBuf.getD (inBuf.length - 1) 0 = 0xAA)
    (hlf : (6 + (inBuf.getD 2 0 + 256 * inBuf.getD 3 0)) % 65536 ≠ inBuf.length) :
    parseFrame inBuf = ⟨-3, 0, 0, [], 0⟩ := by
  simp only [parseFrame]
  rw [if_neg h8, if_neg (not_not_intro hh), if_neg (not_not_intro htl), if_pos hlf]

/-- When all structural checks pass, `parseFrame` reaches the CRC comparison
and returns the parsed fields with return code 0 or -4. -/
theorem parseFrame_checks_pass (inBuf : List Nat) (h8 : ¬ inBuf.length < 8)
    (hh : inBuf.getD 0 0 = 0xAA ∧ inBuf.getD 1 0 = 0x55)
    (htl : inBuf.getD (inBuf.length - 2) 0 = 0x55 ∧
           inBuf.getD (inBuf.length - 1) 0 = 0xAA)
    (hlf : (6 + (inBuf.getD 2 0 + 256 * inBuf.getD 3 0)) % 65536 = inBuf.length) :
    parseFrame inBuf =
      (if inBuf.getD ((6 + (inBuf.getD 2 0 + 256 * inBuf.getD 3 0 + 65536 - 4) % 65536) % 65536) 0 +
          256 * inBuf.getD ((6 + (inBuf.getD 2 0 + 256 * inBuf.getD 3 0 + 65536 - 4) % 65536) % 65536 + 1) 0 ≠
          CRC16_Calc ((inBuf.drop 4).take
            ((2 + (inBuf.getD 2 0 + 256 * inBuf.getD 3 0 + 65536 - 4) % 65536) % 65536)) 0xFFFF
       then (⟨-4, inBuf.getD 4 0, inBuf.getD 5 0,
              (inBuf.drop 6).take ((inBuf.getD 2 0 + 256 * inBuf.getD 3 0 + 65536 - 4) % 65536),
              (inBuf.getD 2 0 + 256 * inBuf.getD 3 0 + 65536 - 4) % 65536⟩ : ParseResult)
       else ⟨0, inBuf.getD 4 0, inBuf.getD 5 0,
              (inBuf.drop 6).take ((inBuf.getD 2 0 + 256 * inBuf.getD 3 0 + 65536 - 4) % 65536),
              (inBuf.getD 2 0 + 256 * inBuf.getD 3 0 + 65536 - 4) % 65536⟩) := by
  simp only [parseFrame]
  rw [if_neg h8, if_neg (not_not_intro hh), if_neg (not_not_intro htl),
    if_neg (not_not_intro hlf)]

/-- Bytes read from a list are members of it. -/
theorem getD_mem {l : List Nat} {n : Nat} (h : n < l.length) : l.getD n 0 ∈ l := by
  rw [List.getD_eq_getElem l 0 h]
  exact List.getElem_mem h

/-! ### C1 — build/parse round trip -/

/-- C1: for every command id, sequence number and payload whose total frame
fits a uint16 length (`payloadLen + 10 ≤ 65535`) and whose output buffer is
large enough, `buildFrame` succeeds, and `parseFrame` on exactly the emitted
bytes returns 0 with the original command id, sequence number, payload bytes
and payload length. -/
theorem C1_roundtrip (cmd seq : Nat) (payload : List Nat) (outBufLen : Nat)
    (hc : cmd < 256) (hs : seq < 256) (hp : ∀ b ∈ payload, b < 256)
    (hlen : payload.length + 10 ≤ 65535) (hcap : payload.length + 10 ≤ outBufLen) :
    ∃ F, buildFrame cmd seq payload outBufLen = some F ∧
      parseFrame F = ⟨0, cmd, seq, payload, payload.length⟩ := by
  set crc := CRC16_Calc (cmd :: seq :: payload) 0xFFFF with hcrcdef
  have hmem : ∀ b ∈ (cmd :: seq :: payload), b < 65536 := by
    intro b hb
    rcases List.mem_cons.mp hb with h | hb
    · omega
    rcases List.mem_cons.mp hb with h | hb
    · omega
    · have := hp b hb; omega
  have hcrclt : crc < 65536 := CRC16_Calc_lt (by norm_num) hmem
  refine ⟨frameBytes cmd seq payload (crc % 256) (crc / 256 % 256),
    buildFrame_eq cmd seq payload outBufLen hlen hcap, ?_⟩
  set F := frameBytes cmd seq payload (crc % 256) (crc / 256 % 256) with hFdef
  have hFlen : F.length = payload.length + 10 := frameBytes_length _ _ _ _ _
  obtain ⟨g0, g1, g2, g3, g4, g5⟩ :=
    frameBytes_getD_lo cmd seq payload (crc % 256) (crc / 256 % 256)
  obtain ⟨g6, g7, g8, g9⟩ :=
    frameBytes_getD_hi cmd seq payload (crc % 256) (crc / 256 % 256)
  rw [← hFdef] at g0 g1 g2 g3 g4 g5 g6 g7 g8 g9
  have hLF : F.getD 2 0 + 256 * F.getD 3 0 = payload.length + 4 := by
    rw [g2, g3]; omega
  have h8 : ¬ F.length < 8 := by omega
  have htl : F.getD (F.length - 2) 0 = 0x55 ∧ F.getD (F.length - 1) 0 = 0xAA := by
    rw [hFlen]
    have e1 : payload.length + 10 - 2 = 8 + payload.length := by omega
    have e2 : payload.length + 10 - 1 = 9 + payload.length := by omega
    rw [e1, e2]
    exact ⟨g8, g9⟩
  have hlf : (6 + (F.getD 2 0 + 256 * F.getD 3 0)) % 65536 = F.length := by
    rw [hLF, hFlen]; omega
  have hres := parseFrame_checks_pass F h8 ⟨g0, g1⟩ htl hlf
  rw [hLF] at hres
  have hpl : (payload.length + 4 + 65536 - 4) % 65536 = payload.length := by omega
  rw [hpl] at hres
  have hoff : (6 + payload.length) % 65536 = 6 + payload.length := by omega
  rw [hoff] at hres
  rw [g6] at hres
  have h7p : 6 + payload.length + 1 = 7 + payload.length := by omega
  rw [h7p, g7] at hres
  have htake2 : (2 + payload.length) % 65536 = 2 + payload.length := by omega
  rw [htake2, frameBytes_drop4] at hres
  have htake : (cmd :: seq :: (payload ++ [crc % 256, crc / 256 % 256, 0x55, 0xAA])).take
      (2 + payload.length) = cmd :: seq :: payload := by
    have e : 2 + payload.length = payload.length + 1 + 1 := by omega
    rw [e, List.take_succ_cons, List.take_succ_cons, List.take_left]
  rw [htake, frameBytes_drop6, List.take_left] at hres
  have hrecv : crc % 256 + 256 * (crc / 256 % 256) = crc := by omega
  rw [hrecv, ← hcrcdef] at hres
  rw [if_neg (not_not_intro rfl), g4, g5] at hres
  exact hres

theorem C1_roundtrip_witness :
    ((1 : Nat) < 256 ∧ (2 : Nat) < 256 ∧ (∀ b ∈ ([3, 4] : List Nat), b < 256) ∧
      ([3, 4] : List Nat).length + 10 ≤ 65535 ∧ ([3, 4] : List Nat).length + 10 ≤ 14) ∧
    (∃ F, buildFrame 1 2 [3, 4] 14 = some F ∧
      parseFrame F = ⟨0, 1, 2, [3, 4], ([3, 4] : List Nat).length⟩) :=
  ⟨⟨by norm_num, by norm_num, by decide, by norm_num, by norm_num⟩,
   C1_roundtrip 1 2 [3, 4] 14 (by norm_num) (by norm_num) (by decide)
     (by norm_num) (by norm_num)⟩

/-! ### C7 — parseFrame minimum-length guard -/

/-- C7: the minimum-length guard of `parseFrame` (`inLen < 8`) accepts inputs
of 8 or 9 bytes even though the smallest encodable frame (zero payload) is
10 bytes.  Any 8- or 9-byte input that also passes the head, tail and
exact-length checks (which forces the length field to be 2 or 3) is not
rejected on the length check: the parse reaches the CRC stage (return code 0
or -4) and the written `*pPayloadLen` is `(lengthField - 4) mod 2^16 =
65526 + inLen`, i.e. 65534 or 65535. -/
theorem C7_min_length_guard (inBuf : List Nat)
    (hb : ∀ b ∈ inBuf, b < 256)
    (hlen : inBuf.length = 8 ∨ inBuf.length = 9)
    (hh : inBuf.getD 0 0 = 0xAA ∧ inBuf.getD 1 0 = 0x55)
    (htl : inBuf.getD (inBuf.length - 2) 0 = 0x55 ∧
           inBuf.getD (inBuf.length - 1) 0 = 0xAA)
    (hlf : (6 + (inBuf.getD 2 0 + 256 * inBuf.getD 3 0)) % 65536 = inBuf.length) :
    ((parseFrame inBuf).ret = 0 ∨ (parseFrame inBuf).ret = -4) ∧
    (parseFrame inBuf).payloadLen = 65526 + inBuf.length ∧
    (∃ Fmin, buildFrame 0 0 [] 65535 = some Fmin ∧ Fmin.length = 10) := by
  have h8 : ¬ inBuf.length < 8 := by omega
  have hres := parseFrame_checks_pass inBuf h8 hh htl hlf
  have hg2 : inBuf.getD 2 0 < 256 := hb _ (getD_mem (by omega))
  have hg3 : inBuf.getD 3 0 < 256 := hb _ (getD_mem (by omega))
  have hpl : (inBuf.getD 2 0 + 256 * inBuf.getD 3 0 + 65536 - 4) % 65536 =
      65526 + inBuf.length := by omega
  rw [hpl] at hres
  refine ⟨?_, ?_, ?_⟩
  · split at hres <;> rw [hres]
    · right; rfl
    · left; rfl
  · split at hres <;> rw [hres]
  · exact ⟨frameBytes 0 0 [] (CRC16_Calc [0, 0] 0xFFFF % 256)
      (CRC16_Calc [0, 0] 0xFFFF / 256 % 256),
      buildFrame_eq 0 0 [] 65535 (by norm_num) (by norm_num),
      frameBytes_length 0 0 [] _ _⟩

theorem C7_min_length_guard_witness :
    ((∀ b ∈ ([0xAA, 0x55, 2, 0, 0xFF, 0xFF, 0x55, 0xAA] : List Nat), b < 256) ∧
      (([0xAA, 0x55, 2, 0, 0xFF, 0xFF, 0x55, 0xAA] : List Nat).length = 8 ∨
       ([0xAA, 0x55, 2, 0, 0xFF, 0xFF, 0x55, 0xAA] : List Nat).length = 9)) ∧
    (((parseFrame [0xAA, 0x55, 2, 0, 0xFF, 0xFF, 0x55, 0xAA]).ret = 0 ∨
      (parseFrame [0xAA, 0x55, 2, 0, 0xFF, 0xFF, 0x55, 0xAA]).ret = -4) ∧
     (parseFrame [0xAA, 0x55, 2, 0, 0xFF, 0xFF, 0x55, 0xAA]).payloadLen =
       65526 + ([0xAA, 0x55, 2, 0, 0xFF, 0xFF, 0x55, 0xAA] : List Nat).length ∧
     (∃ Fmin, buildFrame 0 0 [] 65535 = some Fmin ∧ Fmin.length = 10)) :=
  ⟨⟨by decide, by decide⟩,
   C7_min_length_guard [0xAA, 0x55, 2, 0, 0xFF, 0xFF, 0x55, 0xAA]
     (by decide) (by decide) (by decide) (by decide) (by decide)⟩

/-! ### C10 — GetStatus response -/

/-- C10 counterexample: in the initial state (mode Continuous, stream
Stopped) a GetStatus request with seq 5 is answered with a StatusResponse
whose payload is the full 8-byte `status_payload` array, so the payload is
not "exactly the four bytes [0,0,0,0]" the claim states. -/
theorem C10_counterexample :
    app_init.mode = 0 ∧ app_init.status = 0 ∧
    (app_handle_command app_init 0x02 5 [] 0).2 =
      [⟨0x82, 5, [0, 0, 0, 0, 0, 0, 0, 0]⟩] ∧
    ∀ e ∈ (app_handle_command app_init 0x02 5 [] 0).2, e.payload ≠ [0, 0, 0, 0] :=
  ⟨rfl, rfl, by decide, by decide⟩

/-- C10 (amended): while mode is Continuous (0) and the stream is Stopped
(0), GetStatus produces exactly one StatusResponse (0x82) echoing the
request's seq, whose payload is the eight bytes [0,0,0,0,0,0,0,0]: the four
meaningful bytes {mode, streamStatus, errorFlag, errorCode} all zero,
followed by four zero padding bytes (the C code sends
`sizeof(status_payload)` = 8 bytes). -/
theorem C10_get_status (s : AppState) (seq rnd : Nat) (payload : List Nat)
    (hm : s.mode = 0) (hs : s.status = 0) :
    (app_handle_command s 0x02 seq payload rnd).2 =
      [⟨0x82, seq, [0, 0, 0, 0, 0, 0, 0, 0]⟩] := by
  norm_num [app_handle_command, hm, hs]

theorem C10_get_status_witness :
    app_init.mode = 0 ∧ app_init.status = 0 ∧
    (app_handle_command app_init 0x02 5 [] 0).2 =
      [⟨0x82, 5, [0, 0, 0, 0, 0, 0, 0, 0]⟩] :=
  ⟨rfl, rfl, C10_get_status app_init 5 0 [] rfl rfl⟩

/-! ### C6 — ConfigureStream short payload -/

/-- C6 counterexample: a ConfigureStream request whose payload is the single
byte [2] announces two configuration records but contains none.  The claim
says the device must answer Nack {ParameterError, 0x01}; the code's record
loop simply stops (`offset + 6 <= payload_len` fails on the first
iteration) and the handler answers Ack (0x90), not Nack (0x91). -/
theorem C6_counterexample :
    1 ≤ ([2] : List Nat).length ∧
    ([2] : List Nat).getD 0 0 = 2 ∧
    (app_handle_command app_init 0x14 7 [2] 0).2 = [⟨0x90, 7, []⟩] ∧
    ∀ e ∈ (app_handle_command app_init 0x14 7 [2] 0).2, e.cmd ≠ 0x91 :=
  ⟨by decide, by decide, by decide, by decide⟩

/-- C6 (amended): only a ConfigureStream request with an empty payload
(missing even the count byte) is answered Nack {ParameterError 0x01, 0x01}
echoing the request's seq; every payload containing at least the count byte
is answered Ack echoing the seq, even when the count byte announces more
records than the payload contains — the handler applies the complete records
that are present and never rejects a short record list. -/
theorem C6_configure_stream (s : AppState) (seq rnd : Nat) (payload : List Nat) :
    (app_handle_command s 0x14 seq payload rnd).2 =
      if payload.length < 1 then [⟨0x91, seq, [0x01, 0x01]⟩]
      else [⟨0x90, seq, []⟩] := by
  norm_num [app_handle_command]
  split <;> rfl

/-! ### Extractor step lemmas -/

/-- A scan position without the header marker is skipped by exactly one byte. -/
theorem extractScan_skip (buf : Nat → Nat) (idx avail : Nat) (h : ¬ avail < 8)
    (hb : ¬ (buf idx = 0xAA ∧ buf ((idx + 1) % 65535) = 0x55)) :
    extractScan buf idx avail = extractScan buf ((idx + 1) % 65535) (avail - 1) := by
  rw [extractScan]
  rw [dif_neg h, if_neg hb]

/-- A header candidate whose (wrapped) frame size exceeds MAX_FRAME_SIZE is
treated as noise: the scan advances by exactly one byte, not by the bogus
frame size. -/
theorem extractScan_oversize (buf : Nat → Nat) (idx avail : Nat) (h : ¬ avail < 8)
    (hb : buf idx = 0xAA ∧ buf ((idx + 1) % 65535) = 0x55)
    (hov : scanFrameSize buf idx > 8192) :
    extractScan buf idx avail = extractScan buf ((idx + 1) % 65535) (avail - 1) := by
  rw [extractScan]
  rw [dif_neg h, if_pos hb, if_neg (by omega : ¬ avail < 8)]
  rw [if_pos (by simpa [MAX_FRAME_SIZE] using hov)]

/-- A header candidate whose frame size is in range and fully buffered is
extracted: the frame bytes are copied out and the scan reports the new head
one frame further. -/
theorem extractScan_hit (buf : Nat → Nat) (idx avail : Nat) (h : ¬ avail < 8)
    (hb : buf idx = 0xAA ∧ buf ((idx + 1) % 65535) = 0x55)
    (hmax : ¬ scanFrameSize buf idx > 8192) (hav : ¬ scanFrameSize buf idx > avail) :
    extractScan buf idx avail =
      some ((List.range (scanFrameSize buf idx)).map (fun i => buf ((idx + i) % 65535)),
            (idx + scanFrameSize buf idx) % 65535) := by
  rw [extractScan]
  rw [dif_neg h, if_pos hb, if_neg (by omega : ¬ avail < 8)]
  rw [if_neg (by simpa [MAX_FRAME_SIZE] using hmax)]
  rw [if_neg hav]

/-- Reading every position of a list reproduces the list. -/
theorem map_getD_range (l : List Nat) :
    (List.range l.length).map (fun i => l.getD i 0) = l := by
  apply List.ext_getElem
  · simp
  · intro i h1 h2
    simp only [List.getElem_map, List.getElem_range]
    rw [List.getD_eq_getElem l 0 h2]

/-! ### C3 — RX resynchronization -/

/-- One unfolding of the drain loop. -/
theorem tryParse_succ (fuel : Nat) (r : RxBuffer) :
    tryParseFramesFromRx (fuel + 1) r =
      match tryExtractOneFrame r with
      | none => ([], r)
      | some (frame, r1) =>
          ((frame :: (tryParseFramesFromRx fuel r1).1),
            (tryParseFramesFromRx fuel r1).2) := rfl

/-- Drain step on a successful extraction. -/
theorem tryParse_some (fuel : Nat) (r r1 : RxBuffer) (frame : List Nat)
    (h : tryExtractOneFrame r = some (frame, r1)) :
    tryParseFramesFromRx (fuel + 1) r =
      ((frame :: (tryParseFramesFromRx fuel r1).1),
        (tryParseFramesFromRx fuel r1).2) := by
  rw [tryParse_succ, h]

/-- Drain step on a failing extraction. -/
theorem tryParse_none (fuel : Nat) (r : RxBuffer)
    (h : tryExtractOneFrame r = none) :
    tryParseFramesFromRx (fuel + 1) r = ([], r) := by
  rw [tryParse_succ, h]

/-- Core resynchronization behaviour: feeding two noise bytes, a spurious
`AA 55` pair, a well-formed frame `G` (header marker, length field matching
its length, within MAX_FRAME_SIZE) and one trailing noise byte into an empty
RX ring, then draining, delivers exactly `[G]` and leaves the head right
after the consumed frame.  The spurious header pair at offset 2 reads the
bogus length field 0x55AA (frame size 21936 > MAX_FRAME_SIZE) and is skipped
by exactly one byte, as are the plain noise bytes. -/
theorem rx_resync_core (G : List Nat) (buf0 : Nat → Nat)
    (hG0 : G.getD 0 0 = 0xAA) (hG1 : G.getD 1 0 = 0x55)
    (hGLF : G.getD 2 0 + 256 * G.getD 3 0 = G.length - 6)
    (hGlen : 10 ≤ G.length) (hGmax : G.length ≤ 8192) :
    (feedRxBuffer ⟨buf0, 0, 0⟩ ([0xFF, 0xFF, 0xAA, 0x55] ++ G ++ [0xFF])).1 =
      G.length + 5 ∧
    ∀ fuel, 2 ≤ fuel →
      (tryParseFramesFromRx fuel
        (feedRxBuffer ⟨buf0, 0, 0⟩ ([0xFF, 0xFF, 0xAA, 0x55] ++ G ++ [0xFF])).2).1 =
        [G] ∧
      (tryParseFramesFromRx fuel
        (feedRxBuffer ⟨buf0, 0, 0⟩ ([0xFF, 0xFF, 0xAA, 0x55] ++ G ++ [0xFF])).2).2.head =
        4 + G.length := by
  set fed := [0xFF, 0xFF, 0xAA, 0x55] ++ G ++ [0xFF] with hfeddef
  have hfedlen : fed.length = G.length + 5 := by
    rw [hfeddef]
    simp only [List.length_append, List.length_cons, List.length_nil]
    omega
  have hfree : rxBufferFreeSpace ⟨buf0, 0, 0⟩ = 65534 := by
    simp only [rxBufferFreeSpace, RX_BUFFER_SIZE]
  have htw : (if fed.length ≤ rxBufferFreeSpace ⟨buf0, 0, 0⟩ then fed.length
      else rxBufferFreeSpace ⟨buf0, 0, 0⟩) = G.length + 5 := by
    rw [hfree, hfedlen, if_pos (by omega)]
  have htake : fed.take (G.length + 5) = fed :=
    List.take_of_length_le (by omega)
  have hWtail : (ringWrite buf0 0 fed).2 = G.length + 5 := by
    rw [ringWrite_tail fed buf0 0 (by norm_num), hfedlen, Nat.zero_add,
      Nat.mod_eq_of_lt (by omega)]
  have hfeed : feedRxBuffer ⟨buf0, 0, 0⟩ fed =
      (G.length + 5, ⟨(ringWrite buf0 0 fed).1, 0, G.length + 5⟩) := by
    simp only [feedRxBuffer]
    rw [htw, htake, hWtail]
  have hB : ∀ i, i < G.length + 5 →
      (ringWrite buf0 0 fed).1 i = fed.getD i 0 := by
    intro i hi
    have hget := (ringWrite_get fed buf0 0 (by norm_num) (by omega)).1 i (by omega)
    rwa [Nat.zero_add, Nat.mod_eq_of_lt (by omega)] at hget
  have h4len : ([0xFF, 0xFF, 0xAA, 0x55] : List Nat).length = 4 := rfl
  have hfgG : ∀ i, i < G.length → fed.getD (4 + i) 0 = G.getD i 0 := by
    intro i hi
    rw [hfeddef, List.getD_append _ _ _ _
        (by simp only [List.length_append, List.length_cons, List.length_nil]; omega),
      List.getD_append_right _ _ _ _ (by rw [h4len]; omega), h4len]
    have e : 4 + i - 4 = i := by omega
    rw [e]
  have hfg : ∀ i, i < 4 → fed.getD i 0 = [0xFF, 0xFF, 0xAA, 0x55].getD i 0 := by
    intro i hi
    rw [hfeddef, List.getD_append _ _ _ _
        (by simp only [List.length_append, List.length_cons, List.length_nil]; omega),
      List.getD_append _ _ _ _ (by rw [h4len]; omega)]
  have hB0 : (ringWrite buf0 0 fed).1 0 = 0xFF := by
    rw [hB 0 (by omega), hfg 0 (by norm_num)]
    rfl
  have hB1 : (ringWrite buf0 0 fed).1 1 = 0xFF := by
    rw [hB 1 (by omega), hfg 1 (by norm_num)]
    rfl
  have hB2 : (ringWrite buf0 0 fed).1 2 = 0xAA := by
    rw [hB 2 (by omega), hfg 2 (by norm_num)]
    rfl
  have hB3 : (ringWrite buf0 0 fed).1 3 = 0x55 := by
    rw [hB 3 (by omega), hfg 3 (by norm_num)]
    rfl
  have hB4 : (ringWrite buf0 0 fed).1 4 = 0xAA := by
    have h := hfgG 0 (by omega)
    rw [Nat.add_zero, hG0] at h
    rw [hB 4 (by omega), h]
  have hB5 : (ringWrite buf0 0 fed).1 5 = 0x55 := by
    have h := hfgG 1 (by omega)
    rw [show (4 : Nat) + 1 = 5 from by norm_num, hG1] at h
    rw [hB 5 (by omega), h]
  have hB6 : (ringWrite buf0 0 fed).1 6 = G.getD 2 0 := by
    have h := hfgG 2 (by omega)
    rw [show (4 : Nat) + 2 = 6 from by norm_num] at h
    rw [hB 6 (by omega), h]
  have hB7 : (ringWrite buf0 0 fed).1 7 = G.getD 3 0 := by
    have h := hfgG 3 (by omega)
    rw [show (4 : Nat) + 3 = 7 from by norm_num] at h
    rw [hB 7 (by omega), h]
  -- the five scan steps
  have s1 : extractScan (ringWrite buf0 0 fed).1 0 (G.length + 5) =
      extractScan (ringWrite buf0 0 fed).1 1 (G.length + 4) := by
    have h := extractScan_skip (ringWrite buf0 0 fed).1 0 (G.length + 5)
      (by omega) (by simp [hB0])
    have e1 : (0 + 1) % 65535 = 1 := by norm_num
    have e2 : G.length + 5 - 1 = G.length + 4 := by omega
    rwa [e1, e2] at h
  have s2 : extractScan (ringWrite buf0 0 fed).1 1 (G.length + 4) =
      extractScan (ringWrite buf0 0 fed).1 2 (G.length + 3) := by
    have h := extractScan_skip (ringWrite buf0 0 fed).1 1 (G.length + 4)
      (by omega) (by simp [hB1])
    have e1 : (1 + 1) % 65535 = 2 := by norm_num
    have e2 : G.length + 4 - 1 = G.length + 3 := by omega
    rwa [e1, e2] at h
  have s3 : extractScan (ringWrite buf0 0 fed).1 2 (G.length + 3) =
      extractScan (ringWrite buf0 0 fed).1 3 (G.length + 2) := by
    have hov : scanFrameSize (ringWrite buf0 0 fed).1 2 > 8192 := by
      unfold scanFrameSize
      rw [show (2 + 2) % 65535 = 4 from by norm_num,
        show (2 + 3) % 65535 = 5 from by norm_num, hB4, hB5]
      norm_num
    have h := extractScan_oversize (ringWrite buf0 0 fed).1 2 (G.length + 3)
      (by omega) (by rw [show (2 + 1) % 65535 = 3 from by norm_num, hB2, hB3]; exact ⟨rfl, rfl⟩)
      hov
    have e1 : (2 + 1) % 65535 = 3 := by norm_num
    have e2 : G.length + 3 - 1 = G.length + 2 := by omega
    rwa [e1, e2] at h
  have s4 : extractScan (ringWrite buf0 0 fed).1 3 (G.length + 2) =
      extractScan (ringWrite buf0 0 fed).1 4 (G.length + 1) := by
    have h := extractScan_skip (ringWrite buf0 0 fed).1 3 (G.length + 2)
      (by omega) (by simp [hB3])
    have e1 : (3 + 1) % 65535 = 4 := by norm_num
    have e2 : G.length + 2 - 1 = G.length + 1 := by omega
    rwa [e1, e2] at h
  have hfs5 : scanFrameSize (ringWrite buf0 0 fed).1 4 = G.length := by
    unfold scanFrameSize
    rw [show (4 + 2) % 65535 = 6 from by norm_num,
      show (4 + 3) % 65535 = 7 from by norm_num, hB6, hB7, hGLF]
    omega
  have s5 : extractScan (ringWrite buf0 0 fed).1 4 (G.length + 1) =
      some (G, 4 + G.length) := by
    have hb : (ringWrite buf0 0 fed).1 4 = 0xAA ∧
        (ringWrite buf0 0 fed).1 ((4 + 1) % 65535) = 0x55 := by
      rw [show (4 + 1) % 65535 = 5 from by norm_num, hB4, hB5]
      exact ⟨rfl, rfl⟩
    have h := extractScan_hit (ringWrite buf0 0 fed).1 4 (G.length + 1)
      (by omega) hb (by rw [hfs5]; omega) (by rw [hfs5]; omega)
    rw [hfs5] at h
    have hmapG : (List.range G.length).map
        (fun i => (ringWrite buf0 0 fed).1 ((4 + i) % 65535)) = G := by
      have hcong : ∀ i ∈ List.range G.length,
          (ringWrite buf0 0 fed).1 ((4 + i) % 65535) = G.getD i 0 := by
        intro i hi
        rw [List.mem_range] at hi
        rw [Nat.mod_eq_of_lt (by omega), hB (4 + i) (by omega), hfgG i (by omega)]
      rw [List.map_congr_left hcong, map_getD_range]
    rw [hmapG, Nat.mod_eq_of_lt (by omega)] at h
    exact h
  have hscan : extractScan (ringWrite buf0 0 fed).1 0 (G.length + 5) =
      some (G, 4 + G.length) := by
    rw [s1, s2, s3, s4, s5]
  have hext1 : tryExtractOneFrame ⟨(ringWrite buf0 0 fed).1, 0, G.length + 5⟩ =
      some (G, ⟨(ringWrite buf0 0 fed).1, 4 + G.length, G.length + 5⟩) := by
    unfold tryExtractOneFrame
    have havail : rxAvailable ⟨(ringWrite buf0 0 fed).1, 0, G.length + 5⟩ =
        G.length + 5 := by
      simp only [rxAvailable, RX_BUFFER_SIZE]
      omega
    rw [havail, if_neg (by omega), hscan]
  have hext2 : tryExtractOneFrame
      ⟨(ringWrite buf0 0 fed).1, 4 + G.length, G.length + 5⟩ = none := by
    unfold tryExtractOneFrame
    have havail : rxAvailable ⟨(ringWrite buf0 0 fed).1, 4 + G.length, G.length + 5⟩ =
        1 := by
      simp only [rxAvailable, RX_BUFFER_SIZE]
      omega
    rw [havail, if_pos (by norm_num)]
  have hfeed2 : (feedRxBuffer ⟨buf0, 0, 0⟩ fed).2 =
      ⟨(ringWrite buf0 0 fed).1, 0, G.length + 5⟩ := by rw [hfeed]
  refine ⟨by rw [hfeed], ?_⟩
  intro fuel hfuel
  obtain ⟨f, rfl⟩ : ∃ f, fuel = f + 1 + 1 := ⟨fuel - 2, by omega⟩
  rw [hfeed2, tryParse_some (f + 1) _ _ _ hext1, tryParse_none f _ hext2]
  exact ⟨rfl, rfl⟩

/-- C3: for every valid frame `F` produced by `buildFrame` within the
maximum frame size, feeding `FF FF AA 55 <F> FF` into an empty RX ring
buffer stores all the bytes, and the drain loop then delivers exactly one
frame — byte-equal to `F` — leaving the head right after it.  The two noise
bytes and the spurious `AA 55` pair (whose peeked length field decodes to a
frame size of 21936 > MAX_FRAME_SIZE) are skipped by advancing the scan
position one byte at a time, never by a bogus frame size. -/
theorem C3_resync (cmd seq : Nat) (payload : List Nat) (buf0 : Nat → Nat)
    (F : List Nat) (hc : cmd < 256) (hs : seq < 256)
    (hp : ∀ b ∈ payload, b < 256)
    (hlen : payload.length + 10 ≤ 8192)
    (hF : buildFrame cmd seq payload 8192 = some F) :
    (feedRxBuffer ⟨buf0, 0, 0⟩ ([0xFF, 0xFF, 0xAA, 0x55] ++ F ++ [0xFF])).1 =
      F.length + 5 ∧
    ∀ fuel, 2 ≤ fuel →
      (tryParseFramesFromRx fuel (feedRxBuffer ⟨buf0, 0, 0⟩
        ([0xFF, 0xFF, 0xAA, 0x55] ++ F ++ [0xFF])).2).1 = [F] ∧
      (tryParseFramesFromRx fuel (feedRxBuffer ⟨buf0, 0, 0⟩
        ([0xFF, 0xFF, 0xAA, 0x55] ++ F ++ [0xFF])).2).2.head = 4 + F.length := by
  rw [buildFrame_eq cmd seq payload 8192 (by omega) (by omega)] at hF
  have hFeq := Option.some.inj hF
  subst hFeq
  obtain ⟨g0, g1, g2, g3, _, _⟩ := frameBytes_getD_lo cmd seq payload
    (CRC16_Calc (cmd :: seq :: payload) 0xFFFF % 256)
    (CRC16_Calc (cmd :: seq :: payload) 0xFFFF / 256 % 256)
  have hlenF := frameBytes_length cmd seq payload
    (CRC16_Calc (cmd :: seq :: payload) 0xFFFF % 256)
    (CRC16_Calc (cmd :: seq :: payload) 0xFFFF / 256 % 256)
  exact rx_resync_core _ buf0 g0 g1
    (by rw [g2, g3, hlenF]; omega) (by rw [hlenF]; omega) (by rw [hlenF]; omega)

theorem C3_resync_witness :
    ((1 : Nat) < 256 ∧ (2 : Nat) < 256 ∧ (∀ b ∈ ([3, 4] : List Nat), b < 256) ∧
      ([3, 4] : List Nat).length + 10 ≤ 8192 ∧
      buildFrame 1 2 [3, 4] 8192 = some (frameBytes 1 2 [3, 4]
        (CRC16_Calc [1, 2, 3, 4] 0xFFFF % 256)
        (CRC16_Calc [1, 2, 3, 4] 0xFFFF / 256 % 256))) ∧
    ((feedRxBuffer ⟨fun _ => 0, 0, 0⟩ ([0xFF, 0xFF, 0xAA, 0x55] ++
        frameBytes 1 2 [3, 4] (CRC16_Calc [1, 2, 3, 4] 0xFFFF % 256)
          (CRC16_Calc [1, 2, 3, 4] 0xFFFF / 256 % 256) ++ [0xFF])).1 =
      (frameBytes 1 2 [3, 4] (CRC16_Calc [1, 2, 3, 4] 0xFFFF % 256)
        (CRC16_Calc [1, 2, 3, 4] 0xFFFF / 256 % 256)).length + 5 ∧
    ∀ fuel, 2 ≤ fuel →
      (tryParseFramesFromRx fuel (feedRxBuffer ⟨fun _ => 0, 0, 0⟩
        ([0xFF, 0xFF, 0xAA, 0x55] ++ frameBytes 1 2 [3, 4]
          (CRC16_Calc [1, 2, 3, 4] 0xFFFF % 256)
          (CRC16_Calc [1, 2, 3, 4] 0xFFFF / 256 % 256) ++ [0xFF])).2).1 =
        [frameBytes 1 2 [3, 4] (CRC16_Calc [1, 2, 3, 4] 0xFFFF % 256)
          (CRC16_Calc [1, 2, 3, 4] 0xFFFF / 256 % 256)] ∧
      (tryParseFramesFromRx fuel (feedRxBuffer ⟨fun _ => 0, 0, 0⟩
        ([0xFF, 0xFF, 0xAA, 0x55] ++ frameBytes 1 2 [3, 4]
          (CRC16_Calc [1, 2, 3, 4] 0xFFFF % 256)
          (CRC16_Calc [1, 2, 3, 4] 0xFFFF / 256 % 256) ++ [0xFF])).2).2.head =
        4 + (frameBytes 1 2 [3, 4] (CRC16_Calc [1, 2, 3, 4] 0xFFFF % 256)
          (CRC16_Calc [1, 2, 3, 4] 0xFFFF / 256 % 256)).length) :=
  ⟨⟨by norm_num, by norm_num, by decide, by decide, by decide⟩,
   C3_resync 1 2 [3, 4] (fun _ => 0) _ (by norm_num) (by norm_num) (by decide)
     (by decide) (by decide)⟩

/-! ### C2 — single-bit corruption detection -/

theorem getD_set_self {l : List Nat} {i : Nat} {b : Nat} (h : i < l.length) :
    (l.set i b).getD i 0 = b := by
  rw [List.getD_eq_getElem?_getD, List.getElem?_set, if_pos rfl, if_pos h]
  rfl

theorem getD_set_ne {l : List Nat} {i j : Nat} {b : Nat} (h : i ≠ j) :
    (l.set i b).getD j 0 = l.getD j 0 := by
  rw [List.getD_eq_getElem?_getD, List.getElem?_set, if_neg h,
    ← List.getD_eq_getElem?_getD]

/-- Every byte of a built frame is a byte (the length and checksum fields are
reduced mod 256 at serialization time). -/
theorem frameBytes_mem_lt {cmd seq : Nat} {payload : List Nat} {c0 c1 : Nat}
    (hc : cmd < 256) (hs : seq < 256) (hp : ∀ b ∈ payload, b < 256)
    (hc0 : c0 < 256) (hc1 : c1 < 256) :
    ∀ b ∈ frameBytes cmd seq payload c0 c1, b < 256 := by
  intro b hb
  unfold frameBytes at hb
  rcases List.mem_append.mp hb with hb1 | hb2
  · rcases List.mem_append.mp hb1 with hb3 | hb4
    · simp only [List.mem_cons, List.not_mem_nil, or_false] at hb3
      rcases hb3 with rfl | rfl | rfl | rfl | rfl | rfl <;> omega
    · exact hp b hb4
  · simp only [List.mem_cons, List.not_mem_nil, or_false] at hb2
    rcases hb2 with rfl | rfl | rfl | rfl <;> omega

theorem drop4_set (l : List Nat) (i b : Nat) (h : 4 ≤ i) :
    (l.set i b).drop 4 = (l.drop 4).set (i - 4) b := by
  rw [List.drop_set, if_neg (show ¬ i < 4 from by omega)]

/-- C2: flipping any single bit anywhere in a frame emitted by `buildFrame`
(head, length field, commandID, seq, payload, checksum or tail) makes
`parseFrame` on the corrupted buffer return a nonzero error — head mismatch
(-1), tail mismatch (-2), length mismatch (-3) or CRC mismatch (-4) — never
success.  A flip in the CRC-covered region is caught because a CRC16 step is
injective in the running crc, so one changed byte always changes the final
checksum. -/
theorem C2_bitflip_detected (cmd seq : Nat) (payload : List Nat)
    (outBufLen : Nat) (F : List Nat) (i k : Nat)
    (hc : cmd < 256) (hs : seq < 256) (hp : ∀ b ∈ payload, b < 256)
    (hlen : payload.length + 10 ≤ 65535)
    (hF : buildFrame cmd seq payload outBufLen = some F)
    (hi : i < F.length) (hk : k < 8) :
    (parseFrame (F.set i (F.getD i 0 ^^^ 2 ^ k))).ret ≠ 0 := by
  have hcap : payload.length + 10 ≤ outBufLen := by
    by_contra hcap
    push_neg at hcap
    have h1 : (1 + 1 + payload.length + 2) % 65536 = payload.length + 4 := by omega
    simp only [buildFrame, h1] at hF
    rw [show (2 + 2 + (payload.length + 4) + 2) % 65536 = payload.length + 10 from
        by omega, if_pos (by omega)] at hF
    exact Option.noConfusion hF
  rw [buildFrame_eq cmd seq payload outBufLen hlen hcap] at hF
  have hFeq := Option.some.inj hF
  subst hFeq
  set crc := CRC16_Calc (cmd :: seq :: payload) 0xFFFF with hcrcdef
  have hmem : ∀ b ∈ (cmd :: seq :: payload), b < 65536 := by
    intro b hb
    rcases List.mem_cons.mp hb with h | hb
    · omega
    rcases List.mem_cons.mp hb with h | hb
    · omega
    · have := hp b hb; omega
  have hcrclt : crc < 65536 := CRC16_Calc_lt (by norm_num) hmem
  set G := frameBytes cmd seq payload (crc % 256) (crc / 256 % 256) with hGdef
  have hGlen : G.length = payload.length + 10 := by
    rw [hGdef]; exact frameBytes_length _ _ _ _ _
  have hGmem : ∀ b ∈ G, b < 256 := by
    rw [hGdef]
    exact frameBytes_mem_lt hc hs hp (by omega) (by omega)
  rw [hGlen] at hi
  obtain ⟨g0, g1, g2, g3, g4, g5⟩ :=
    frameBytes_getD_lo cmd seq payload (crc % 256) (crc / 256 % 256)
  obtain ⟨g6, g7, g8, g9⟩ :=
    frameBytes_getD_hi cmd seq payload (crc % 256) (crc / 256 % 256)
  rw [← hGdef] at g0 g1 g2 g3 g4 g5 g6 g7 g8 g9
  set bb := G.getD i 0 ^^^ 2 ^ k with hbbdef
  clear_value crc G bb
  have hbi : G.getD i 0 < 256 := hGmem _ (getD_mem (by omega))
  have hbb : bb < 256 := by
    rw [hbbdef]
    have h2k : 2 ^ k < 256 := by
      calc 2 ^ k < 2 ^ 8 := Nat.pow_lt_pow_right (by norm_num) hk
      _ = 256 := by norm_num
    have := Nat.xor_lt_two_pow (x := G.getD i 0) (y := 2 ^ k) (n := 8)
      (by omega) (by omega)
    omega
  have hbne : bb ≠ G.getD i 0 := by
    rw [hbbdef]
    intro h
    have h1 : G.getD i 0 ^^^ (G.getD i 0 ^^^ 2 ^ k) = G.getD i 0 ^^^ G.getD i 0 := by
      rw [h]
    rw [Nat.xor_cancel_left, Nat.xor_self] at h1
    have := Nat.two_pow_pos k
    omega
  have hClen : (G.set i bb).length = payload.length + 10 := by
    rw [List.length_set, hGlen]
  have h8 : ¬ (G.set i bb).length < 8 := by omega
  have hCgi : (G.set i bb).getD i 0 = bb := getD_set_self (by omega)
  have hCg : ∀ j, i ≠ j → (G.set i bb).getD j 0 = G.getD j 0 := fun j h =>
    getD_set_ne h
  have hcase : i = 0 ∨ i = 1 ∨ i = 2 ∨ i = 3 ∨
      (4 ≤ i ∧ i ≤ 5 + payload.length) ∨ i = 6 + payload.length ∨
      i = 7 + payload.length ∨ i = 8 + payload.length ∨
      i = 9 + payload.length := by omega
  rcases hcase with rfl | rfl | rfl | rfl | ⟨hil, hir⟩ | rfl | rfl | rfl | rfl
  · -- flip in head byte 0
    rw [parseFrame_head_fail _ h8 (by
      rw [hCgi]
      intro hcontra
      exact hbne (hcontra.1.trans g0.symm))]
    norm_num
  · -- flip in head byte 1
    rw [parseFrame_head_fail _ h8 (by
      rw [hCgi, hCg 0 (by omega), g0]
      intro hcontra
      exact hbne (hcontra.2.trans g1.symm))]
    norm_num
  · -- flip in length field low byte
    rw [parseFrame_len_fail _ h8
      ⟨by rw [hCg 0 (by omega), g0], by rw [hCg 1 (by omega), g1]⟩
      (by
        rw [hClen]
        constructor
        · rw [show payload.length + 10 - 2 = 8 + payload.length from by omega,
            hCg _ (by omega), g8]
        · rw [show payload.length + 10 - 1 = 9 + payload.length from by omega,
            hCg _ (by omega), g9])
      (by
        rw [hClen, hCgi, hCg 3 (by omega), g3]
        have hbne2 : bb ≠ (payload.length + 4) % 256 := by rw [← g2]; exact hbne
        omega)]
    norm_num
  · -- flip in length field high byte
    rw [parseFrame_len_fail _ h8
      ⟨by rw [hCg 0 (by omega), g0], by rw [hCg 1 (by omega), g1]⟩
      (by
        rw [hClen]
        constructor
        · rw [show payload.length + 10 - 2 = 8 + payload.length from by omega,
            hCg _ (by omega), g8]
        · rw [show payload.length + 10 - 1 = 9 + payload.length from by omega,
            hCg _ (by omega), g9])
      (by
        rw [hClen, hCgi, hCg 2 (by omega), g2]
        have hbne2 : bb ≠ (payload.length + 4) / 256 % 256 := by rw [← g3]; exact hbne
        omega)]
    norm_num
  · -- flip in commandID / seq / payload: CRC catches it
    have hh : (G.set i bb).getD 0 0 = 0xAA ∧ (G.set i bb).getD 1 0 = 0x55 :=
      ⟨by rw [hCg 0 (by omega), g0], by rw [hCg 1 (by omega), g1]⟩
    have htl : (G.set i bb).getD ((G.set i bb).length - 2) 0 = 0x55 ∧
        (G.set i bb).getD ((G.set i bb).length - 1) 0 = 0xAA := by
      rw [hClen]
      constructor
      · rw [show payload.length + 10 - 2 = 8 + payload.length from by omega,
          hCg _ (by omega), g8]
      · rw [show payload.length + 10 - 1 = 9 + payload.length from by omega,
          hCg _ (by omega), g9]
    have hLF : (G.set i bb).getD 2 0 + 256 * (G.set i bb).getD 3 0 =
        payload.length + 4 := by
      rw [hCg 2 (by omega), hCg 3 (by omega), g2, g3]
      omega
    have hlf : (6 + ((G.set i bb).getD 2 0 + 256 * (G.set i bb).getD 3 0)) % 65536 =
        (G.set i bb).length := by
      rw [hLF, hClen]
      omega
    have hres := parseFrame_checks_pass (G.set i bb) h8 hh htl hlf
    rw [hLF] at hres
    have hpl : (payload.length + 4 + 65536 - 4) % 65536 = payload.length := by omega
    rw [hpl] at hres
    have hoff : (6 + payload.length) % 65536 = 6 + payload.length := by omega
    rw [hoff] at hres
    rw [hCg (6 + payload.length) (by omega), g6] at hres
    rw [show 6 + payload.length + 1 = 7 + payload.length from by omega,
      hCg (7 + payload.length) (by omega), g7] at hres
    have hrecv : crc % 256 + 256 * (crc / 256 % 256) = crc := by omega
    rw [hrecv] at hres
    -- the checksummed data with the flipped byte
    have hdata : (((G.set i bb).drop 4).take ((2 + payload.length) % 65536)) =
        (cmd :: seq :: payload).set (i - 4) bb := by
      rw [show (2 + payload.length) % 65536 = 2 + payload.length from by omega]
      rw [drop4_set _ _ _ (by omega), List.set_take]
      have hsub : (G.drop 4).take (2 + payload.length) = cmd :: seq :: payload := by
        rw [hGdef, frameBytes_drop4]
        have e : 2 + payload.length = payload.length + 1 + 1 := by omega
        rw [e, List.take_succ_cons, List.take_succ_cons, List.take_left]
      rw [hsub]
    rw [hdata] at hres
    have hDi : (cmd :: seq :: payload).getD (i - 4) 0 = G.getD i 0 := by
      rcases (by omega : i = 4 ∨ i = 5 ∨ (6 ≤ i ∧ i ≤ 5 + payload.length)) with
        rfl | rfl | ⟨h6, h5p⟩
      · rw [g4]; rfl
      · rw [g5]; rfl
      · have e : i - 4 = (i - 6) + 1 + 1 := by omega
        rw [e, List.getD_cons_succ, List.getD_cons_succ]
        have hpay : G.getD (6 + (i - 6)) 0 = payload.getD (i - 6) 0 := by
          rw [hGdef]
          exact frameBytes_getD_payload cmd seq payload (crc % 256) (crc / 256 % 256)
            (i - 6) (by omega)
        have e2 : 6 + (i - 6) = i := by omega
        rw [e2] at hpay
        exact hpay.symm
    have hflip : CRC16_Calc ((cmd :: seq :: payload).set (i - 4) bb) 0xFFFF ≠ crc := by
      rw [hcrcdef]
      exact crc16_single_flip (cmd :: seq :: payload) (i - 4) (by norm_num) hmem
        (by omega) (by simp only [List.length_cons]; omega)
        (by rw [hDi]; exact hbne)
    rw [if_pos (by omega : crc ≠ CRC16_Calc ((cmd :: seq :: payload).set (i - 4) bb)
      0xFFFF)] at hres
    rw [hres]
    norm_num
  · -- flip in checksum low byte
    have hh : (G.set (6 + payload.length) bb).getD 0 0 = 0xAA ∧
        (G.set (6 + payload.length) bb).getD 1 0 = 0x55 :=
      ⟨by rw [hCg 0 (by omega), g0], by rw [hCg 1 (by omega), g1]⟩
    have htl : (G.set (6 + payload.length) bb).getD
          ((G.set (6 + payload.length) bb).length - 2) 0 = 0x55 ∧
        (G.set (6 + payload.length) bb).getD
          ((G.set (6 + payload.length) bb).length - 1) 0 = 0xAA := by
      rw [hClen]
      constructor
      · rw [show payload.length + 10 - 2 = 8 + payload.length from by omega,
          hCg _ (by omega), g8]
      · rw [show payload.length + 10 - 1 = 9 + payload.length from by omega,
          hCg _ (by omega), g9]
    have hLF : (G.set (6 + payload.length) bb).getD 2 0 +
        256 * (G.set (6 + payload.length) bb).getD 3 0 = payload.length + 4 := by
      rw [hCg 2 (by omega), hCg 3 (by omega), g2, g3]
      omega
    have hlf : (6 + ((G.set (6 + payload.length) bb).getD 2 0 +
        256 * (G.set (6 + payload.length) bb).getD 3 0)) % 65536 =
        (G.set (6 + payload.length) bb).length := by
      rw [hLF, hClen]
      omega
    have hres := parseFrame_checks_pass (G.set (6 + payload.length) bb) h8 hh htl hlf
    rw [hLF] at hres
    have hpl : (payload.length + 4 + 65536 - 4) % 65536 = payload.length := by omega
    rw [hpl] at hres
    have hoff : (6 + payload.length) % 65536 = 6 + payload.length := by omega
    rw [hoff] at hres
    rw [hCgi] at hres
    rw [show 6 + payload.length + 1 = 7 + payload.length from by omega,
      hCg (7 + payload.length) (by omega), g7] at hres
    have hdata : (((G.set (6 + payload.length) bb).drop 4).take
        ((2 + payload.length) % 65536)) = cmd :: seq :: payload := by
      rw [show (2 + payload.length) % 65536 = 2 + payload.length from by omega]
      rw [drop4_set _ _ _ (by omega), List.set_take]
      rw [hGdef, frameBytes_drop4]
      have e : 2 + payload.length = payload.length + 1 + 1 := by omega
      rw [e, List.take_succ_cons, List.take_succ_cons, List.take_left]
      exact List.set_eq_of_length_le (by simp only [List.length_cons]; omega)
    rw [hdata, ← hcrcdef] at hres
    have hbnec : bb ≠ crc % 256 := by rw [← g6]; exact hbne
    rw [if_pos (by omega : bb + 256 * (crc / 256 % 256) ≠ crc)] at hres
    rw [hres]
    norm_num
  · -- flip in checksum high byte
    have hh : (G.set (7 + payload.length) bb).getD 0 0 = 0xAA ∧
        (G.set (7 + payload.length) bb).getD 1 0 = 0x55 :=
      ⟨by rw [hCg 0 (by omega), g0], by rw [hCg 1 (by omega), g1]⟩
    have htl : (G.set (7 + payload.length) bb).getD
          ((G.set (7 + payload.length) bb).length - 2) 0 = 0x55 ∧
        (G.set (7 + payload.length) bb).getD
          ((G.set (7 + payload.length) bb).length - 1) 0 = 0xAA := by
      rw [hClen]
      constructor
      · rw [show payload.length + 10 - 2 = 8 + payload.length from by omega,
          hCg _ (by omega), g8]
      · rw [show payload.length + 10 - 1 = 9 + payload.length from by omega,
          hCg _ (by omega), g9]
    have hLF : (G.set (7 + payload.length) bb).getD 2 0 +
        256 * (G.set (7 + payload.length) bb).getD 3 0 = payload.length + 4 := by
      rw [hCg 2 (by omega), hCg 3 (by omega), g2, g3]
      omega
    have hlf : (6 + ((G.set (7 + payload.length) bb).getD 2 0 +
        256 * (G.set (7 + payload.length) bb).getD 3 0)) % 65536 =
        (G.set (7 + payload.length) bb).length := by
      rw [hLF, hClen]
      omega
    have hres := parseFrame_checks_pass (G.set (7 + payload.length) bb) h8 hh htl hlf
    rw [hLF] at hres
    have hpl : (payload.length + 4 + 65536 - 4) % 65536 = payload.length := by omega
    rw [hpl] at hres
    have hoff : (6 + payload.length) % 65536 = 6 + payload.length := by omega
    rw [hoff] at hres
    rw [hCg (6 + payload.length) (by omega), g6] at hres
    rw [show 6 + payload.length + 1 = 7 + payload.length from by omega, hCgi] at hres
    have hdata : (((G.set (7 + payload.length) bb).drop 4).take
        ((2 + payload.length) % 65536)) = cmd :: seq :: payload := by
      rw [show (2 + payload.length) % 65536 = 2 + payload.length from by omega]
      rw [drop4_set _ _ _ (by omega), List.set_take]
      rw [hGdef, frameBytes_drop4]
      have e : 2 + payload.length = payload.length + 1 + 1 := by omega
      rw [e, List.take_succ_cons, List.take_succ_cons, List.take_left]
      exact List.set_eq_of_length_le (by simp only [List.length_cons]; omega)
    rw [hdata, ← hcrcdef] at hres
    have hbnec : bb ≠ crc / 256 % 256 := by rw [← g7]; exact hbne
    rw [if_pos (by omega : crc % 256 + 256 * bb ≠ crc)] at hres
    rw [hres]
    norm_num
  · -- flip in tail byte 0
    rw [parseFrame_tail_fail _ h8
      ⟨by rw [hCg 0 (by omega), g0], by rw [hCg 1 (by omega), g1]⟩
      (by
        rw [hClen, show payload.length + 10 - 2 = 8 + payload.length from by omega]
        intro hcontra
        exact hbne ((hCgi ▸ hcontra.1 : bb = 0x55).trans g8.symm))]
    norm_num
  · -- flip in tail byte 1
    rw [parseFrame_tail_fail _ h8
      ⟨by rw [hCg 0 (by omega), g0], by rw [hCg 1 (by omega), g1]⟩
      (by
        rw [hClen, show payload.length + 10 - 1 = 9 + payload.length from by omega]
        intro hcontra
        exact hbne ((hCgi ▸ hcontra.2 : bb = 0xAA).trans g9.symm))]
    norm_num

theorem C2_bitflip_detected_witness :
    ((1 : Nat) < 256 ∧ (2 : Nat) < 256 ∧ (∀ b ∈ ([3, 4] : List Nat), b < 256) ∧
      ([3, 4] : List Nat).length + 10 ≤ 65535 ∧
      buildFrame 1 2 [3, 4] 14 = some (frameBytes 1 2 [3, 4]
        (CRC16_Calc [1, 2, 3, 4] 0xFFFF % 256)
        (CRC16_Calc [1, 2, 3, 4] 0xFFFF / 256 % 256)) ∧
      4 < (frameBytes 1 2 [3, 4] (CRC16_Calc [1, 2, 3, 4] 0xFFFF % 256)
        (CRC16_Calc [1, 2, 3, 4] 0xFFFF / 256 % 256)).length ∧ (0 : Nat) < 8) ∧
    (parseFrame ((frameBytes 1 2 [3, 4] (CRC16_Calc [1, 2, 3, 4] 0xFFFF % 256)
        (CRC16_Calc [1, 2, 3, 4] 0xFFFF / 256 % 256)).set 4
      ((frameBytes 1 2 [3, 4] (CRC16_Calc [1, 2, 3, 4] 0xFFFF % 256)
        (CRC16_Calc [1, 2, 3, 4] 0xFFFF / 256 % 256)).getD 4 0 ^^^ 2 ^ 0))).ret ≠ 0 :=
  ⟨⟨by norm_num, by norm_num, by decide, by decide, by decide, by decide, by norm_num⟩,
   C2_bitflip_detected 1 2 [3, 4] 14
     (frameBytes 1 2 [3, 4] (CRC16_Calc [1, 2, 3, 4] 0xFFFF % 256)
       (CRC16_Calc [1, 2, 3, 4] 0xFFFF / 256 % 256)) 4 0
     (by norm_num) (by norm_num) (by decide) (by decide) (by decide) (by decide)
     (by norm_num)⟩

/-! ### C4 — trigger-mode burst -/

/-- A per-tick gap bound implies monotonicity of the schedule. -/
theorem ts_mono {ts : Nat → Nat} (hts : ∀ j, ts j + 10 ≤ ts (j + 1)) :
    ∀ a b, a ≤ b → ts a ≤ ts b := by
  intro a b hab
  induction hab with
  | refl => exact Nat.le_refl _
  | @step b h2 ih =>
      have h3 := hts b
      simp only [Nat.succ_eq_add_one]
      omega

/-- Sending tick of the trigger burst: one more DataPacket goes out. -/
theorem periodic_send_step (s : AppState) (now rnd : Nat)
    (hst : s.startTime ≠ 0) (hrun : s.status = 1) (hmode : s.mode = 1)
    (hocc : s.trigOccurred = 1) (hsend : s.trigSending = 1)
    (hlast : s.lastDataSendTime ≤ now) (hnow : now < 4294967296)
    (hgap : 10 ≤ now - s.lastDataSendTime)
    (hpk : s.packetsSent < s.packetsToSend) :
    app_periodic_task s now rnd =
      ({ s with packetsSent := s.packetsSent + 1, lastDataSendTime := now,
                seqCounter := (s.seqCounter + 1) % 256 }, [0x40]) := by
  have htrig : ¬ (s.trigArmed = 1 ∧ s.trigOccurred = 0 ∧ s.nextTriggerTime ≤ now) := by
    rintro ⟨h1, h2, h3⟩
    omega
  have htime : 10 ≤ (now + 4294967296 - s.lastDataSendTime) % 4294967296 := by omega
  simp only [app_periodic_task, if_neg hst, if_neg (not_not_intro hrun),
    if_pos hmode, if_neg htrig, if_pos hsend, if_pos htime, if_pos hpk,
    List.nil_append]

/-- Completion tick of the trigger burst: BufferTransferComplete goes out,
the trigger sub-state resets and a new trigger time is scheduled. -/
theorem periodic_complete_step (s : AppState) (now rnd : Nat)
    (hst : s.startTime ≠ 0) (hrun : s.status = 1) (hmode : s.mode = 1)
    (hocc : s.trigOccurred = 1) (hsend : s.trigSending = 1)
    (hlast : s.lastDataSendTime ≤ now) (hnow : now < 4294967296)
    (hgap : 10 ≤ now - s.lastDataSendTime)
    (hpk : s.packetsSent = s.packetsToSend) :
    app_periodic_task s now rnd =
      ({ s with trigSending := 0, trigOccurred := 0,
                nextTriggerTime := (now + 10000 + rnd % 5000) % 4294967296,
                seqCounter := (s.seqCounter + 1) % 256 }, [0x4F]) := by
  have htrig : ¬ (s.trigArmed = 1 ∧ s.trigOccurred = 0 ∧ s.nextTriggerTime ≤ now) := by
    rintro ⟨h1, h2, h3⟩
    omega
  have htime : 10 ≤ (now + 4294967296 - s.lastDataSendTime) % 4294967296 := by omega
  simp only [app_periodic_task, if_neg hst, if_neg (not_not_intro hrun),
    if_pos hmode, if_neg htrig, if_pos hsend, if_pos htime,
    if_neg (show ¬ s.packetsSent < s.packetsToSend from by omega),
    List.nil_append]

/-- Trigger tick: when armed, not yet occurred and the trigger time has been
reached, one EventTriggered and (the send interval having elapsed) the first
DataPacket of the burst go out in the same invocation. -/
theorem periodic_trigger_step (s : AppState) (now rnd : Nat)
    (hst : s.startTime ≠ 0) (hrun : s.status = 1) (hmode : s.mode = 1)
    (harm : s.trigArmed = 1) (hocc : s.trigOccurred = 0)
    (hntt : s.nextTriggerTime ≤ now)
    (hlast : s.lastDataSendTime ≤ now) (hnow : now < 4294967296)
    (hgap : 10 ≤ now - s.lastDataSendTime) :
    app_periodic_task s now rnd =
      ({ s with trigOccurred := 1, trigSending := 1, trigTimestamp := now,
                packetsToSend := 5 + rnd % 6, packetsSent := 1,
                lastDataSendTime := now,
                seqCounter := ((s.seqCounter + 1) % 256 + 1) % 256 },
       [0x41, 0x40]) := by
  have htrig : s.trigArmed = 1 ∧ s.trigOccurred = 0 ∧ s.nextTriggerTime ≤ now :=
    ⟨harm, hocc, hntt⟩
  have htime : 10 ≤ (now + 4294967296 - s.lastDataSendTime) % 4294967296 := by omega
  simp only [app_periodic_task, if_neg hst, if_neg (not_not_intro hrun),
    if_pos hmode, if_pos htrig, if_pos (show (1 : Nat) = 1 from rfl),
    if_pos htime, if_pos (show (0 : Nat) < 5 + rnd % 6 from by omega),
    List.cons_append, List.nil_append]
  rw [if_pos trivial]

/-- Pacing: a burst-phase tick arriving less than 10 ms after the last send
emits nothing and leaves the state untouched. -/
theorem periodic_pacing_step (s : AppState) (now rnd : Nat)
    (hst : s.startTime ≠ 0) (hrun : s.status = 1) (hmode : s.mode = 1)
    (hocc : s.trigOccurred = 1) (hsend : s.trigSending = 1)
    (hlast : s.lastDataSendTime ≤ now) (hnow : now < 4294967296)
    (hgap : now - s.lastDataSendTime < 10) :
    app_periodic_task s now rnd = (s, []) := by
  have htrig : ¬ (s.trigArmed = 1 ∧ s.trigOccurred = 0 ∧ s.nextTriggerTime ≤ now) := by
    rintro ⟨h1, h2, h3⟩
    omega
  simp only [app_periodic_task, if_neg hst, if_neg (not_not_intro hrun),
    if_pos hmode, if_neg htrig, if_pos hsend,
    if_neg (show ¬ 10 ≤ (now + 4294967296 - s.lastDataSendTime) % 4294967296
      from by omega)]

/-- Burst-phase run: from a sending state with `m` packets still to send,
driving `m + 1` ticks spaced at least 10 ms apart emits the `m` remaining
DataPackets followed by exactly one BufferTransferComplete, after which
`occurred` and `sending` are 0, the trigger stays armed, and the next
trigger time is the completion time plus `10000 + rand % 5000` ms. -/
theorem burst_run (m : Nat) : ∀ (s : AppState) (ts rs : Nat → Nat),
    s.startTime ≠ 0 → s.status = 1 → s.mode = 1 → s.trigArmed = 1 →
    s.trigOccurred = 1 → s.trigSending = 1 →
    s.packetsSent + m = s.packetsToSend →
    (∀ j, ts j + 10 ≤ ts (j + 1)) →
    s.lastDataSendTime + 10 ≤ ts 0 →
    ts m + 15000 < 4294967296 →
    (runTicks s ((List.range (m + 1)).map (fun j => (ts j, rs j)))).2 =
      List.replicate m 0x40 ++ [0x4F] ∧
    (runTicks s ((List.range (m + 1)).map (fun j => (ts j, rs j)))).1.trigOccurred = 0 ∧
    (runTicks s ((List.range (m + 1)).map (fun j => (ts j, rs j)))).1.trigSending = 0 ∧
    (runTicks s ((List.range (m + 1)).map (fun j => (ts j, rs j)))).1.trigArmed = 1 ∧
    (runTicks s ((List.range (m + 1)).map (fun j => (ts j, rs j)))).1.nextTriggerTime =
      ts m + 10000 + rs m % 5000 := by
  induction m with
  | zero =>
      intro s ts rs hst hrun hmode harm hocc hsend hpk hts hlast hbound
      have hstep := periodic_complete_step s (ts 0) (rs 0) hst hrun hmode hocc hsend
        (by omega) (by omega) (by omega) (by omega)
      have hmod : (ts 0 + 10000 + rs 0 % 5000) % 4294967296 =
          ts 0 + 10000 + rs 0 % 5000 := Nat.mod_eq_of_lt (by omega)
      simp only [List.range_succ_eq_map, List.range_zero, List.map_nil, List.map_cons,
        runTicks, hstep, hmod]
      refine ⟨?_, ?_, ?_, ?_, ?_⟩ <;> first | exact harm | trivial
  | succ m ih =>
      intro s ts rs hst hrun hmode harm hocc hsend hpk hts hlast hbound
      have hmono := ts_mono hts
      have hts0 : ts 0 < 4294967296 := by
        have := hmono 0 (m + 1) (by omega)
        omega
      have hstep := periodic_send_step s (ts 0) (rs 0) hst hrun hmode hocc hsend
        (by omega) hts0 (by omega) (by omega)
      have hIH := ih
        { s with
          packetsSent := s.packetsSent + 1
          lastDataSendTime := ts 0
          seqCounter := (s.seqCounter + 1) % 256 }
        (fun j => ts (j + 1)) (fun j => rs (j + 1))
        hst hrun hmode harm hocc hsend (by show s.packetsSent + 1 + m = s.packetsToSend; omega)
        (fun j => hts (j + 1)) (by show ts 0 + 10 ≤ ts (0 + 1); exact hts 0)
        (by show ts (m + 1) + 15000 < 4294967296; omega)
      rw [List.range_succ_eq_map, List.map_cons, List.map_map]
      simp only [runTicks, hstep]
      have hfun : (fun j => (ts j, rs j)) ∘ Nat.succ =
          fun j => (ts (j + 1), rs (j + 1)) := by
        funext j
        simp [Nat.succ_eq_add_one]
      rw [hfun]
      refine ⟨?_, hIH.2.1, hIH.2.2.1, hIH.2.2.2.1, hIH.2.2.2.2⟩
      rw [hIH.1]
      simp [List.replicate_succ]

/-- C4: in Trigger mode with the stream Running, armed and not yet occurred,
when the periodic task is driven with monotonically increasing timestamps
(consecutive ticks at least one 10 ms send interval apart) and time first
reaches `nextTriggerTime` at tick 0, the engine emits exactly one
EventTriggered (0x41), then `N = 5 + rand % 6` DataPackets (0x40) with
5 ≤ N ≤ 10 — one per tick, paced by the 10 ms send interval — then exactly
one BufferTransferComplete (0x4F); afterwards `occurred` and `sending` are
reset to 0, the trigger stays armed, and `nextTriggerTime` is rescheduled to
the completion time plus a value in [10000, 15000) ms.  The final conjunct
is the pacing guarantee: a burst-phase tick arriving less than 10 ms after
the last send emits nothing and changes nothing. -/
theorem C4_trigger_burst (s : AppState) (ts rs : Nat → Nat)
    (hst : s.startTime ≠ 0) (hrun : s.status = 1) (hmode : s.mode = 1)
    (harm : s.trigArmed = 1) (hocc : s.trigOccurred = 0) (hsend : s.trigSending = 0)
    (hntt : s.nextTriggerTime ≤ ts 0)
    (hts : ∀ j, ts j + 10 ≤ ts (j + 1))
    (hlast : s.lastDataSendTime + 10 ≤ ts 0)
    (hbound : ts (5 + rs 0 % 6) + 15000 < 4294967296) :
    (5 ≤ 5 + rs 0 % 6 ∧ 5 + rs 0 % 6 ≤ 10) ∧
    (∃ s1, runTicks s ((List.range (5 + rs 0 % 6 + 1)).map (fun j => (ts j, rs j))) =
        (s1, 0x41 :: (List.replicate (5 + rs 0 % 6) 0x40 ++ [0x4F])) ∧
      s1.trigOccurred = 0 ∧ s1.trigSending = 0 ∧ s1.trigArmed = 1 ∧
      ts (5 + rs 0 % 6) + 10000 ≤ s1.nextTriggerTime ∧
      s1.nextTriggerTime < ts (5 + rs 0 % 6) + 15000) ∧
    (∀ s2 now2 rnd2, s2.startTime ≠ 0 → s2.status = 1 → s2.mode = 1 →
      s2.trigOccurred = 1 → s2.trigSending = 1 → s2.lastDataSendTime ≤ now2 →
      now2 < 4294967296 → now2 - s2.lastDataSendTime < 10 →
      app_periodic_task s2 now2 rnd2 = (s2, [])) := by
  refine ⟨⟨by omega, by omega⟩, ?_, ?_⟩
  · have hmono := ts_mono hts
    have hts0 : ts 0 < 4294967296 := by
      have := hmono 0 (5 + rs 0 % 6) (by omega)
      omega
    have hstep := periodic_trigger_step s (ts 0) (rs 0) hst hrun hmode harm hocc
      hntt (by omega) hts0 (by omega)
    have hIH := burst_run (4 + rs 0 % 6)
      { s with
        trigOccurred := 1
        trigSending := 1
        trigTimestamp := ts 0
        packetsToSend := 5 + rs 0 % 6
        packetsSent := 1
        lastDataSendTime := ts 0
        seqCounter := ((s.seqCounter + 1) % 256 + 1) % 256 }
      (fun j => ts (j + 1)) (fun j => rs (j + 1))
      hst hrun hmode harm rfl rfl
      (by show 1 + (4 + rs 0 % 6) = 5 + rs 0 % 6; omega)
      (fun j => hts (j + 1)) (by show ts 0 + 10 ≤ ts (0 + 1); exact hts 0)
      (by
        have e : 4 + rs 0 % 6 + 1 = 5 + rs 0 % 6 := by omega
        show ts (4 + rs 0 % 6 + 1) + 15000 < 4294967296
        rw [e]
        omega)
    refine ⟨(runTicks
      { s with
        trigOccurred := 1
        trigSending := 1
        trigTimestamp := ts 0
        packetsToSend := 5 + rs 0 % 6
        packetsSent := 1
        lastDataSendTime := ts 0
        seqCounter := ((s.seqCounter + 1) % 256 + 1) % 256 }
      ((List.range (4 + rs 0 % 6 + 1)).map
        (fun j => (ts (j + 1), rs (j + 1))))).1, ?_, ?_, ?_, ?_, ?_, ?_⟩
    · rw [show 5 + rs 0 % 6 + 1 = (4 + rs 0 % 6 + 1) + 1 from by omega,
        List.range_succ_eq_map, List.map_cons, List.map_map]
      simp only [runTicks, hstep]
      have hfun : (fun j => (ts j, rs j)) ∘ Nat.succ =
          fun j => (ts (j + 1), rs (j + 1)) := by
        funext j
        simp [Nat.succ_eq_add_one]
      rw [hfun]
      have hlist : (0x41 : Nat) :: 0x40 ::
          (List.replicate (4 + rs 0 % 6) 0x40 ++ [0x4F]) =
          0x41 :: (List.replicate (5 + rs 0 % 6) 0x40 ++ [0x4F]) := by
        rw [show 5 + rs 0 % 6 = (4 + rs 0 % 6) + 1 from by omega,
          List.replicate_succ]
        rfl
      rw [← hlist, ← hIH.1]
      rfl
    · exact hIH.2.1
    · exact hIH.2.2.1
    · exact hIH.2.2.2.1
    · rw [hIH.2.2.2.2]
      have e1 : (fun j => ts (j + 1)) (4 + rs 0 % 6) = ts (5 + rs 0 % 6) := by
        show ts (4 + rs 0 % 6 + 1) = ts (5 + rs 0 % 6)
        rw [show 4 + rs 0 % 6 + 1 = 5 + rs 0 % 6 from by omega]
      have e2 : (fun j => rs (j + 1)) (4 + rs 0 % 6) = rs (5 + rs 0 % 6) := by
        show rs (4 + rs 0 % 6 + 1) = rs (5 + rs 0 % 6)
        rw [show 4 + rs 0 % 6 + 1 = 5 + rs 0 % 6 from by omega]
      rw [e1, e2]
      omega
    · rw [hIH.2.2.2.2]
      have e1 : (fun j => ts (j + 1)) (4 + rs 0 % 6) = ts (5 + rs 0 % 6) := by
        show ts (4 + rs 0 % 6 + 1) = ts (5 + rs 0 % 6)
        rw [show 4 + rs 0 % 6 + 1 = 5 + rs 0 % 6 from by omega]
      have e2 : (fun j => rs (j + 1)) (4 + rs 0 % 6) = rs (5 + rs 0 % 6) := by
        show rs (4 + rs 0 % 6 + 1) = rs (5 + rs 0 % 6)
        rw [show 4 + rs 0 % 6 + 1 = 5 + rs 0 % 6 from by omega]
      rw [e1, e2]
      omega
  · intro s2 now2 rnd2 h1 h2 h3 h4 h5 h6 h7 h8
    exact periodic_pacing_step s2 now2 rnd2 h1 h2 h3 h4 h5 h6 h7 h8

theorem C4_trigger_burst_witness :
    (({ app_init with mode := 1, status := 1, trigArmed := 1, startTime := 1, nextTriggerTime := 5000 } : AppState).startTime ≠ 0 ∧
     ({ app_init with mode := 1, status := 1, trigArmed := 1, startTime := 1, nextTriggerTime := 5000 } : AppState).status = 1 ∧
     ({ app_init with mode := 1, status := 1, trigArmed := 1, startTime := 1, nextTriggerTime := 5000 } : AppState).trigOccurred = 0 ∧
     ({ app_init with mode := 1, status := 1, trigArmed := 1, startTime := 1, nextTriggerTime := 5000 } : AppState).nextTriggerTime ≤ 5000 + 10 * 0 ∧
     (∀ j : Nat, 5000 + 10 * j + 10 ≤ 5000 + 10 * (j + 1)) ∧
     ({ app_init with mode := 1, status := 1, trigArmed := 1, startTime := 1, nextTriggerTime := 5000 } : AppState).lastDataSendTime + 10 ≤ 5000 + 10 * 0 ∧
     5000 + 10 * 5 + 15000 < 4294967296) ∧
    ((5 ≤ 5 + (0 : Nat) % 6 ∧ 5 + (0 : Nat) % 6 ≤ 10) ∧
     (∃ s1, runTicks
         { app_init with mode := 1, status := 1, trigArmed := 1, startTime := 1, nextTriggerTime := 5000 }
         ((List.range 6).map (fun j => (5000 + 10 * j, 0))) =
         (s1, 0x41 :: (List.replicate 5 0x40 ++ [0x4F])) ∧
       s1.trigOccurred = 0 ∧ s1.trigSending = 0 ∧ s1.trigArmed = 1 ∧
       5050 + 10000 ≤ s1.nextTriggerTime ∧ s1.nextTriggerTime < 5050 + 15000) ∧
     (∀ s2 now2 rnd2, s2.startTime ≠ 0 → s2.status = 1 → s2.mode = 1 →
       s2.trigOccurred = 1 → s2.trigSending = 1 → s2.lastDataSendTime ≤ now2 →
       now2 < 4294967296 → now2 - s2.lastDataSendTime < 10 →
       app_periodic_task s2 now2 rnd2 = (s2, []))) :=
  ⟨⟨by decide, rfl, rfl, by decide, fun j => by omega, by decide, by norm_num⟩,
   C4_trigger_burst
     { app_init with mode := 1, status := 1, trigArmed := 1, startTime := 1, nextTriggerTime := 5000 }
     (fun j => 5000 + 10 * j) (fun _ => 0)
     (by decide) rfl rfl rfl rfl rfl (by decide)
     (fun j => by show 5000 + 10 * j + 10 ≤ 5000 + 10 * (j + 1); omega)
     (by decide) (by decide)⟩

end DeviceSim
